import Mathlib

/-!
# Verification of the wallet-session manager (`walletService.js` and its bot-layer callers)

This file gives a shallow embedding of the wallet connection session manager of the
repository: the session registry (`sessions`, `userSessions`, `pendingTransactions`
maps), the connection negotiator (`createWalletConnectSession`, the approval-resolution
handler, `generateWalletConnectURI`, `validateWalletConnectURI`), the transaction relay
(`sendTransaction` with its `Promise.race` timeout), the cleanup operations
(`cleanupSession`, `disconnectWallet`, `cleanupExpiredSessions`, `checkConnection`),
and the bot layer's guarded notification handler (`handleWalletConnected`).

Conventions of the embedding:
* JS `Map` objects become association lists `List (Nat × _)` with `Map.get/set/delete`
  modelled by `lookupA/insertA/eraseA`; `uuid` session ids and telegram user ids are
  opaque identifiers modelled as `Nat`.
* Timestamps (`Date.now()`) are explicit `Nat` millisecond parameters.
* JS strings are Lean `String`s; the character-level algorithms (`split`, `replace`,
  `URLSearchParams`, percent-decoding) are modelled on `List Char` and wrapped.
* Asynchronous settlement (the approval future, the `Promise.race` of the signing
  request against the 60s timer) is modelled by explicit outcome parameters; each
  JS `await` boundary becomes a separate state-transition function so that
  interleavings can be analysed.
-/

/-! ## Character/string primitives mirroring the JavaScript string operations -/

/-- JS `s.split(sep)` for a single-character separator, on `List Char`. -/
def splitOnChar (sep : Char) : List Char → List (List Char)
  | [] => [[]]
  | c :: rest =>
    let r := splitOnChar sep rest
    if c = sep then [] :: r
    else
      match r with
      | [] => [[c]]
      | h :: t => (c :: h) :: t

/-- `String.split` wrapper producing `String` pieces (JS `s.split(sep)`). -/
def splitOnCharS (sep : Char) (s : String) : List String :=
  (splitOnChar sep s.data).map String.mk

/-- Boolean prefix test on `List Char` (JS `s.startsWith(p)`). -/
def isPrefixList : List Char → List Char → Bool
  | [], _ => true
  | _ :: _, [] => false
  | a :: as, b :: bs => a = b && isPrefixList as bs

/-- JS `s.replace(pat, '')` for a plain-string pattern: removes the first
occurrence of `pat` (and only the first). -/
def replaceFirstL (pat : List Char) : List Char → List Char
  | [] => []
  | c :: rest =>
    if isPrefixList pat (c :: rest) then (c :: rest).drop pat.length
    else c :: replaceFirstL pat rest

/-- JS `s.includes(sub)`: does `sub` occur as a contiguous substring? -/
def strIncludesL (sub : List Char) : List Char → Bool
  | [] => isPrefixList sub []
  | c :: rest => isPrefixList sub (c :: rest) || strIncludesL sub rest

/-- JS `s.includes(sub)` on `String`. -/
def strIncludes (s sub : String) : Bool :=
  strIncludesL sub.data s.data

/-- Is `c` a hexadecimal digit character (`0-9a-fA-F`)? -/
def isHexDigitB (c : Char) : Bool :=
  c.isDigit || (97 ≤ c.toNat && c.toNat ≤ 102) || (65 ≤ c.toNat && c.toNat ≤ 70)

/-- Numeric value of a hexadecimal digit character (`0-9a-fA-F`). -/
def hexVal (c : Char) : Nat :=
  if 97 ≤ c.toNat then c.toNat - 87
  else if 65 ≤ c.toNat then c.toNat - 55
  else c.toNat - 48

/-- Lowercase hexadecimal digit character for a value `< 16` (as produced by
JS `n.toString(16)`). -/
def hexDigitChar (n : Nat) : Char :=
  if n < 10 then Char.ofNat (48 + n) else Char.ofNat (87 + n)

/-- Little-endian hexadecimal digit expansion with explicit fuel (structural, so
that it evaluates by `decide`). -/
def toHexLE : Nat → Nat → List Char
  | 0, _ => []
  | fuel + 1, n =>
    if n < 16 then [hexDigitChar n]
    else hexDigitChar (n % 16) :: toHexLE fuel (n / 16)

/-- JS `n.toString(16)`: lowercase hexadecimal rendering of a natural number. -/
def natToHexChars (n : Nat) : List Char :=
  (toHexLE (n + 1) n).reverse

/-- JS `n.toString(16)` as a `String`. -/
def natToHexString (n : Nat) : String :=
  String.mk (natToHexChars n)

/-- Continuation of `parseIntOpt`: value of a list of decimal digit characters. -/
def decDigitsVal (l : List Char) : Nat :=
  l.foldl (fun acc c => acc * 10 + (c.toNat - 48)) 0

/-- JS `parseInt(s)` (radix 10) on the strings arising here: parses the longest
leading run of decimal digits; `none` models `NaN`.  (Sign/whitespace handling is
not needed for the inputs the source feeds to `parseInt`.) -/
def parseIntOpt (s : String) : Option Nat :=
  let ds := s.data.takeWhile fun c => c.isDigit
  if ds.isEmpty then none else some (decDigitsVal ds)

/-- Value of a list of hexadecimal digit characters, big-endian. -/
def hexDigitsVal (l : List Char) : Nat :=
  l.foldl (fun acc c => acc * 16 + hexVal c) 0

/-- Little-endian value of a hex digit list. -/
def hexValLE : List Char → Nat
  | [] => 0
  | c :: rest => hexVal c + 16 * hexValLE rest

/-- JS `parseInt(s, 16)`: optional `0x` prefix, then the longest leading run of
hex digits; `none` models `NaN`. -/
def parseHexOpt (s : String) : Option Nat :=
  let l := if isPrefixList ['0', 'x'] s.data then s.data.drop 2 else s.data
  let ds := l.takeWhile fun c => isHexDigitB c
  if ds.isEmpty then none else some (hexDigitsVal ds)

/-- Characters `encodeURIComponent` leaves unescaped (ASCII unreserved set). -/
def isUnreservedURIChar (c : Char) : Bool :=
  c.isAlphanum || c = '-' || c = '_' || c = '.' || c = '!' || c = '~' ||
    c = '*' || c = Char.ofNat 39 || c = '(' || c = ')'

/-- JS `encodeURIComponent` restricted to ASCII input (all that occurs here):
unreserved characters pass through, everything else becomes `%HH` with uppercase
hex digits. -/
def encodeURIComponentL : List Char → List Char
  | [] => []
  | c :: rest =>
    if isUnreservedURIChar c then c :: encodeURIComponentL rest
    else
      let hi := c.toNat / 16
      let lo := c.toNat % 16
      let hexU := fun n => if n < 10 then Char.ofNat (48 + n) else Char.ofNat (55 + n)
      '%' :: hexU hi :: hexU lo :: encodeURIComponentL rest

/-- The application/x-www-form-urlencoded decoding performed by `URLSearchParams`
on ASCII input: `+` becomes space, `%HH` with two hex digits becomes the coded
character, malformed escapes pass through verbatim. -/
def urlDecode : List Char → List Char
  | [] => []
  | c :: rest =>
    if c = '+' then ' ' :: urlDecode rest
    else if c = '%' then
      match rest with
      | a :: b :: rest2 =>
        if isHexDigitB a && isHexDigitB b then
          Char.ofNat (16 * hexVal a + hexVal b) :: urlDecode rest2
        else '%' :: urlDecode (a :: b :: rest2)
      | [a] => '%' :: urlDecode [a]
      | [] => ['%']
    else c :: urlDecode rest

/-- `String.intercalate` on `List Char` pieces, for a one-character separator. -/
def intercalateChar (c : Char) : List (List Char) → List Char
  | [] => []
  | [x] => x
  | x :: xs => x ++ c :: intercalateChar c xs

/-- Split one `k=v` piece at its first `=` (as `URLSearchParams` does); a piece
with no `=` gets the empty value. -/
def splitPairAtEq (piece : List Char) : List Char × List Char :=
  match splitOnChar '=' piece with
  | [] => ([], [])
  | k :: vs => (k, intercalateChar '=' vs)

/-- `new URLSearchParams(query).get(name)`: split on `&`, drop empty segments,
split each segment at the first `=`, percent-decode keys and values, return the
value of the first pair whose decoded key is `name` (`none` models `null`). -/
def urlParamsGet (query : List Char) (name : List Char) : Option (List Char) :=
  let pieces := (splitOnChar '&' query).filter fun p => !p.isEmpty
  let pairs := pieces.map fun p =>
    let kv := splitPairAtEq p
    (urlDecode kv.1, urlDecode kv.2)
  (pairs.find? fun kv => kv.1 = name).map fun kv => kv.2

/-! ## Association-list model of the JS `Map`s -/

/-- `Map.get(k)`: first binding of key `k`, if any. -/
def lookupA {α : Type} : List (Nat × α) → Nat → Option α
  | [], _ => none
  | (k, v) :: rest, k' => if k = k' then some v else lookupA rest k'

/-- `Map.set(k, v)`: replace the binding of `k` in place, or append it. -/
def insertA {α : Type} : List (Nat × α) → Nat → α → List (Nat × α)
  | [], k, v => [(k, v)]
  | (k0, v0) :: rest, k, v =>
    if k0 = k then (k, v) :: rest else (k0, v0) :: insertA rest k v

/-- `Map.delete(k)`: remove the binding of `k` (the first, and under key
uniqueness the only, occurrence). -/
def eraseA {α : Type} : List (Nat × α) → Nat → List (Nat × α)
  | [], _ => []
  | (k0, v0) :: rest, k =>
    if k0 = k then rest else (k0, v0) :: eraseA rest k

/-- The key list of a map. -/
def keysA {α : Type} (m : List (Nat × α)) : List Nat :=
  m.map Prod.fst

/-! ## Data model (`walletService.js`) -/

/-- The per-session record stored in `this.sessions`, with the ad hoc
`connector` capability object flattened into `connector*` fields.  The manual
fallback connector has no `signClient`/`topic` fields (`connectorHasSignClient =
false`, `connectorTopic = none`); the protocol-backed connector starts with
`topic = null` until approval.  `chainId = none` models JS `NaN`.
`notificationSent` is the bot layer's duplicate-notification guard; it is absent
(JS `undefined`, falsy) until first set, modelled as `false`. -/
structure Session where
  id : Nat
  telegramUserId : Nat
  connected : Bool
  address : Option String
  chainId : Option Nat
  createdAt : Nat
  lastActivity : Nat
  uri : String
  isManual : Bool
  connectorConnected : Bool
  connectorTopic : Option Nat
  connectorHasSignClient : Bool
  connectorChainId : Option Nat
  connectorAccounts : List String
  notificationSent : Bool
  deriving Repr, DecidableEq

/-- The normalized transaction request built by `sendTransaction`
(`from/to/data/value/gas/gasPrice/chainId`). -/
structure TxRequest where
  fromAddr : Option String
  toAddr : String
  data : String
  value : String
  gas : Nat
  gasPrice : String
  chainId : String
  deriving Repr, DecidableEq

/-- One in-flight signing request (`this.pendingTransactions` values). -/
structure PendingTx where
  id : Nat
  description : String
  txRequest : TxRequest
  timestamp : Nat
  status : String
  txHash : Option String
  error : Option String
  deriving Repr, DecidableEq

/-- The three tables owned by `WalletService`. -/
structure WalletState where
  sessions : List (Nat × Session)
  userSessions : List (Nat × Nat)
  pendingTransactions : List (Nat × PendingTx)
  deriving Repr, DecidableEq

/-- The configuration values the wallet service reads (`config.js`): `chainId =
parseInt(CHAIN_ID) || 97`, `gasLimit = parseInt(GAS_LIMIT) || 1000000`,
`gasPrice = GAS_PRICE || '20000000000'`.  The `|| 97` default makes
`chainId` nonzero in every configuration. -/
structure Config where
  chainId : Nat
  gasLimit : Nat
  gasPrice : String
  deriving Repr, DecidableEq

/-- The default configuration of `config.js` (no environment overrides). -/
def defaultConfig : Config :=
  { chainId := 97, gasLimit := 1000000, gasPrice := "20000000000" }

/-- The idle-expiry window: `30 * 60 * 1000` ms, used both by `checkConnection`
and by `cleanupExpiredSessions`. -/
def sessionExpireMs : Nat := 30 * 60 * 1000

/-- The result shape of `checkConnection`. -/
structure CheckResult where
  connected : Bool
  address : Option String := none
  chainId : Option Nat := none
  sessionId : Option Nat := none
  reason : Option String := none
  deriving Repr, DecidableEq

/-! ## Session registry operations -/

/-- `cleanupSession(sessionId)`: if the session exists, delete it, its
`userSessions` index entry (keyed by the session's `telegramUserId`), and any
pending transaction keyed by the session; otherwise do nothing. -/
def cleanupSession (st : WalletState) (sessionId : Nat) : WalletState :=
  match lookupA st.sessions sessionId with
  | none => st
  | some s =>
    { sessions := eraseA st.sessions sessionId
      userSessions := eraseA st.userSessions s.telegramUserId
      pendingTransactions := eraseA st.pendingTransactions sessionId }

/-- `disconnectWallet(telegramUserId)`: look up the user's session id and clean
it up.  The protocol-level disconnect / `killSession` calls are external
network effects with no bearing on the three tables; their failure is caught
and cleanup proceeds regardless, so the state effect is exactly
`cleanupSession`. -/
def disconnectWallet (st : WalletState) (telegramUserId : Nat) : WalletState :=
  match lookupA st.userSessions telegramUserId with
  | none => st
  | some sessionId => cleanupSession st sessionId

/-- `checkConnection(telegramUserId)` at time `now`: returns the result shape
and the (possibly purged) state. -/
def checkConnection (now : Nat) (st : WalletState) (telegramUserId : Nat) :
    CheckResult × WalletState :=
  match lookupA st.userSessions telegramUserId with
  | none => ({ connected := false, reason := some "No session found" }, st)
  | some sessionId =>
    match lookupA st.sessions sessionId with
    | none =>
      ({ connected := false, reason := some "Session expired" },
       { st with userSessions := eraseA st.userSessions telegramUserId })
    | some s =>
      if now - s.lastActivity > sessionExpireMs then
        ({ connected := false, reason := some "Session timeout" },
         cleanupSession st sessionId)
      else
        ({ connected := s.connected, address := s.address, chainId := s.chainId
           sessionId := some s.id }, st)

/-- `cleanupExpiredSessions()` at time `now`: sweep every stored session whose
`lastActivity` is older than the expiry window.  (JS `Map` iteration is safe
under deletion of the entry being visited; each step deletes only its own
session, so iterating the initial entry list is equivalent.) -/
def cleanupExpiredSessions (now : Nat) (st : WalletState) : WalletState :=
  st.sessions.foldl
    (fun acc p =>
      if now - p.2.lastActivity > sessionExpireMs then cleanupSession acc p.1
      else acc)
    st

/-- The fresh `sessionData` record stored by `createWalletConnectSession`:
`connected = false`, `chainId` preset to the configured chain, both timestamps
`now`, and the connector fields of either the protocol-backed connector
(`signClient` present, `topic = null`) or the manual fallback (`protocol =
false`). -/
def newSessionData (cfg : Config) (now : Nat) (telegramUserId sessionId : Nat)
    (uri : String) (hasSignClient hasProjectId connectOk : Bool) : Session :=
  let protocol := hasSignClient && hasProjectId && connectOk
  { id := sessionId
    telegramUserId := telegramUserId
    connected := false
    address := none
    chainId := some cfg.chainId
    createdAt := now
    lastActivity := now
    uri := uri
    isManual := !hasSignClient || !hasProjectId
    connectorConnected := false
    connectorTopic := none
    connectorHasSignClient := protocol
    connectorChainId := if protocol then none else some cfg.chainId
    connectorAccounts := []
    notificationSent := false }

/-- `createWalletConnectSession(telegramUserId)`, state part.  `sessionId` is
the fresh `uuidv4()`; `uri` the pairing URI that was produced;
`hasSignClient`/`hasProjectId` tell whether `this.signClient` and
`WALLETCONNECT_PROJECT_ID` are available, `connectOk` whether
`signClient.connect` succeeded — together they decide between the
protocol-backed connector (with `signClient`, `topic = null`) and the manual
fallback connector (no `signClient`, default `chainId`).  An existing session
for the user is disconnected first. -/
def createSessionStep (cfg : Config) (now : Nat) (st : WalletState)
    (telegramUserId sessionId : Nat) (uri : String)
    (hasSignClient hasProjectId connectOk : Bool) : WalletState :=
  let st1 :=
    if (lookupA st.userSessions telegramUserId).isSome then
      disconnectWallet st telegramUserId
    else st
  let sessionData := newSessionData cfg now telegramUserId sessionId uri
    hasSignClient hasProjectId connectOk
  { st1 with
    sessions := insertA st1.sessions sessionId sessionData
    userSessions := insertA st1.userSessions telegramUserId sessionId }

/-! ## Connection negotiator: approval resolution -/

/-- Events observable outside the wallet service: the `walletConnected`
emission (payload `{telegramUserId, address, chainId, sessionId}`) and the
connector-level `disconnect` signal. -/
inductive WcEvent where
  | walletConnected (telegramUserId : Nat) (address : String)
      (chainId : Option Nat) (sessionId : Nat)
  | connectorDisconnect
  deriving Repr, DecidableEq

/-- Update the stored session at `sessionId` in place, if present. -/
def modifySession (st : WalletState) (sessionId : Nat) (f : Session → Session) :
    WalletState :=
  match lookupA st.sessions sessionId with
  | none => st
  | some s => { st with sessions := insertA st.sessions sessionId (f s) }

/-- JS falsiness of the modelled `chainId` value (`null`, `NaN`, `0`). -/
def jsFalsyNat : Option Nat → Bool
  | none => true
  | some 0 => true
  | some (_ + 1) => false

/-- The chain id extracted from the approval payload:
`parseInt(chains[0].split(':')[1])` when the namespace lists a chain, `null`
otherwise (`none` also models `NaN`). -/
def payloadChainId (chains : Option (List String)) : Option Nat :=
  match chains with
  | some (c :: _) =>
    match (splitOnCharS ':' c)[1]? with
    | none => none
    | some t => parseIntOpt t
  | _ => none

def approvalChainId (cfg : Config) (chains : Option (List String))
    (queryResult : Except String String) : Option Nat :=
  if jsFalsyNat (payloadChainId chains) ||
      !(payloadChainId chains == some cfg.chainId) then
    match queryResult with
    | .ok resp => parseHexOpt resp
    | .error _ => some cfg.chainId
  else payloadChainId chains

/-- The address extraction of the approval handler:
`connector.accounts[0]?.split(':')[2]`, with the falsy empty string treated as
no address. -/
def approvalAddress (accounts : List String) : Option String :=
  match accounts.head? with
  | none => none
  | some a =>
    match (splitOnCharS ':' a)[2]? with
    | none => none
    | some x => if x = "" then none else some x

/-- Continuation of `approvalResolve` when `chains[0]` did not blow up:
record the connector chain id, extract the address, and if an address was
authorized and the session is still stored, mark it connected and emit the
`walletConnected` event. -/
def approvalResolveOk (cfg : Config) (now : Nat) (st1 : WalletState)
    (sessionId : Nat) (accounts : List String) (chains : Option (List String))
    (queryResult : Except String String) : WalletState × List WcEvent :=
  let chainId1 := approvalChainId cfg chains queryResult
  let st2 := modifySession st1 sessionId fun s =>
    { s with connectorChainId := chainId1 }
  match approvalAddress accounts with
  | none => (st2, [])
  | some addr =>
    match lookupA st2.sessions sessionId with
    | none => (st2, [])
    | some sData =>
      ({ st2 with
          sessions := (insertA st2.sessions sessionId
            { sData with connected := true, address := some addr,
                         chainId := chainId1, lastActivity := now }) },
       [WcEvent.walletConnected sData.telegramUserId addr chainId1 sessionId])

/-- The `approval().then(async (session) => ...)` handler of
`createWalletConnectSession`, fired when the approval future resolves.
`topic` and the `eip155` namespace contents (`accounts`, `chains`) come from
the approval payload; `queryResult` is the wallet's response to the
`eth_chainId` request issued when the payload chain id is missing or differs
from the required chain (`.error` = the request threw, falling back to
`config.chainId`).  Returns the new state and the emitted events. -/
def approvalResolve (cfg : Config) (now : Nat) (st : WalletState)
    (sessionId : Nat) (topic : Nat) (accounts : List String)
    (chains : Option (List String)) (queryResult : Except String String) :
    WalletState × List WcEvent :=
  let st1 := modifySession st sessionId fun s =>
    { s with connectorConnected := true, connectorTopic := some topic,
             connectorAccounts := accounts }
  match chains with
  | some [] =>
    -- `eip155.chains` is truthy (an array) but `chains[0]` is `undefined`:
    -- `chainString.split(':')` throws, so the `.catch` handler runs and the
    -- connector emits `disconnect`; the stored session is not updated further.
    (st1, [WcEvent.connectorDisconnect])
  | _ => approvalResolveOk cfg now st1 sessionId accounts chains queryResult

/-! ## Bot layer: the guarded `walletConnected` notification

`handleWalletConnected(userId, address, chainId)` is called from both trigger
paths: the `walletConnected` event listener (fed by `approvalResolve`) and the
ten-second `checkConnection` poll loop.  Its duplicate guard runs
synchronously before the first `await`; the user-visible message and the
session update follow the `await`.  The two phases are modelled separately so
interleavings at the `await` boundary can be analysed. -/

/-- Synchronous guard phase of `handleWalletConnected`: captures the user's
`sessionId`, no-ops if the session's `notificationSent` flag is already set,
and otherwise sets it.  Returns the new state, whether the handler proceeds to
send the message, and the captured session id. -/
def hwcGuard (st : WalletState) (userId : Nat) :
    WalletState × Bool × Option Nat :=
  match lookupA st.userSessions userId with
  | none => (st, true, none)
  | some sessionId =>
    match lookupA st.sessions sessionId with
    | none => (st, true, some sessionId)
    | some s =>
      if s.notificationSent then (st, false, some sessionId)
      else
        ({ st with sessions := (insertA st.sessions sessionId
            { s with notificationSent := true }) },
         true, some sessionId)

/-- Post-`await` phase of `handleWalletConnected`: after the message is sent,
mark the captured session connected with the reported address/chainId. -/
def hwcFinish (now : Nat) (st : WalletState) (sessionIdOpt : Option Nat)
    (address : String) (chainId : Option Nat) : WalletState :=
  match sessionIdOpt with
  | none => st
  | some sessionId =>
    match lookupA st.sessions sessionId with
    | none => st
    | some s =>
      { st with sessions := (insertA st.sessions sessionId
          { s with connected := true, address := some address,
                   chainId := chainId, lastActivity := now }) }

/-- `handleWalletConnected` run to completion without interleaving; the `Bool`
is whether the user-visible "Wallet Connected Successfully" message was sent. -/
def handleWalletConnected (now : Nat) (st : WalletState) (userId : Nat)
    (address : String) (chainId : Option Nat) : WalletState × Bool :=
  let g := hwcGuard st userId
  if g.2.1 then (hwcFinish now g.1 g.2.2 address chainId, true)
  else (g.1, false)

/-! ## Transaction relay: `sendTransaction` -/

/-- The caller-supplied transaction payload (`transactionData`); `none` models
an omitted field. -/
structure TxInput where
  toAddr : String
  data : Option String := none
  value : Option String := none
  gasLimit : Option Nat := none
  gasPrice : Option String := none
  deriving Repr, DecidableEq

/-- JS `x || d` for an optional string (empty string is falsy). -/
def jsOrStr (o : Option String) (d : String) : String :=
  match o with
  | some s => if s = "" then d else s
  | none => d

/-- JS `x || d` for an optional number (`0` is falsy). -/
def jsOrNat (o : Option Nat) (d : Nat) : Nat :=
  match o with
  | some (n + 1) => n + 1
  | _ => d

/-- The success result shape of `sendTransaction`. -/
structure SendSuccess where
  success : Bool
  txHash : String
  txId : Nat
  address : Option String
  deriving Repr, DecidableEq

/-- Steps of `sendTransaction` that are observable in order:
recording the `pending` transaction, then issuing the signing request. -/
inductive SendAction where
  | recordPending (sessionId : Nat) (tx : PendingTx)
  | issueRequest (sessionId : Nat) (req : TxRequest)
  deriving Repr, DecidableEq

/-- First settlement of `Promise.race([requestPromise, timeoutPromise])`:
either the wallet resolved with a transaction hash, or it rejected with an
error message, or the 60-second timer fired first. -/
inductive RaceOutcome where
  | resolved (txHash : String)
  | rejected (msg : String)
  | timedOut
  deriving Repr, DecidableEq

/-- The normalized `txRequest` object literal of `sendTransaction`: `from` is
the session's address, `data`/`value` default to `'0x'`/`'0x0'`,
`gas`/`gasPrice` default from configuration, and `chainId` is the required
chain id rendered as `0x<hex>`. -/
def mkTxRequest (cfg : Config) (session : Session) (txData : TxInput) :
    TxRequest :=
  { fromAddr := session.address
    toAddr := txData.toAddr
    data := jsOrStr txData.data "0x"
    value := jsOrStr txData.value "0x0"
    gas := jsOrNat txData.gasLimit cfg.gasLimit
    gasPrice := jsOrStr txData.gasPrice cfg.gasPrice
    chainId := "0x" ++ natToHexString cfg.chainId }

/-- The pending-transaction record stored before the signing request is
issued. -/
def mkPendingTx (txId : Nat) (description : String) (req : TxRequest)
    (now : Nat) : PendingTx :=
  { id := txId, description := description, txRequest := req, timestamp := now
    status := "pending", txHash := none, error := none }

/-- The `catch` block of `sendTransaction`: classify the raw error message.
Only the unclassified (generic) branch reaches the code that marks the pending
record `status = 'failed'`; the three classified branches throw first. -/
def sendCatch (st : WalletState) (telegramUserId : Nat) (msg : String)
    (trace : List SendAction) :
    Except String SendSuccess × WalletState × List SendAction :=
  if strIncludes msg "User rejected" then
    (.error "Transaction was rejected by user", st, trace)
  else if strIncludes msg "timeout" then
    (.error "Transaction request timed out. Please try again.", st, trace)
  else if strIncludes msg "Missing or invalid" then
    (.error "WalletConnect configuration error. Please reconnect your wallet.",
     st, trace)
  else
    let st' :=
      match lookupA st.userSessions telegramUserId with
      | none => st
      | some sessionId =>
        match lookupA st.pendingTransactions sessionId with
        | none => st
        | some p =>
          { st with pendingTransactions :=
              (insertA st.pendingTransactions sessionId
                { p with status := "failed", error := some msg }) }
    (.error ("Transaction failed: " ++ msg), st', trace)

/-- `sendTransaction(telegramUserId, transactionData, description)` at time
`now`, with the race's first settlement supplied as `race` and the fresh
`uuidv4()` as `txId`.  Returns the value delivered to the awaiting caller
(exactly one `Except` outcome — a settled promise settles once), the final
state, and the trace of pending-record/request actions. -/
def sendTransaction (cfg : Config) (now : Nat) (st : WalletState)
    (telegramUserId : Nat) (txData : TxInput) (description : String)
    (txId : Nat) (race : RaceOutcome) :
    Except String SendSuccess × WalletState × List SendAction :=
  let c := checkConnection now st telegramUserId
  if !c.1.connected then
    sendCatch c.2 telegramUserId "Wallet not connected" []
  else
    match lookupA c.2.userSessions telegramUserId with
    | none =>
      -- unreachable when the tables are consistent: `session` is `undefined`
      -- and reading `session.connector` throws a TypeError
      sendCatch c.2 telegramUserId "Cannot read properties of undefined" []
    | some sessionId =>
      match lookupA c.2.sessions sessionId with
      | none =>
        sendCatch c.2 telegramUserId "Cannot read properties of undefined" []
      | some session =>
        if !session.connectorHasSignClient || session.connectorTopic.isNone then
          sendCatch c.2 telegramUserId
            "WalletConnect session not properly established. Please reconnect your wallet."
            []
        else
          let txRequest := mkTxRequest cfg session txData
          let pending := mkPendingTx txId description txRequest now
          let st1 := { c.2 with pendingTransactions :=
              (insertA c.2.pendingTransactions sessionId pending) }
          let trace := [SendAction.recordPending sessionId pending,
                        SendAction.issueRequest sessionId txRequest]
          match race with
          | .resolved hash =>
            let st2 :=
              match lookupA st1.pendingTransactions sessionId with
              | none => st1
              | some p =>
                { st1 with pendingTransactions :=
                    (insertA st1.pendingTransactions sessionId
                      { p with status := "sent", txHash := some hash }) }
            let st3 := modifySession st2 sessionId fun s =>
              { s with lastActivity := now }
            (.ok { success := true, txHash := hash, txId := txId,
                   address := session.address }, st3, trace)
          | .rejected msg => sendCatch st1 telegramUserId msg trace
          | .timedOut =>
            sendCatch st1 telegramUserId "Transaction request timeout (60s)" trace

/-- `sendTransaction` together with the eventual settlement `late` of the
signing request after the race has already settled.  The source attaches no
continuation to `requestPromise` other than `Promise.race` itself, and a
promise ignores settlements after the first, so a late resolution reaches no
handler: the definition ignores `late` because the program has no code that
could observe it. -/
def sendTransactionWithLate (cfg : Config) (now : Nat) (st : WalletState)
    (telegramUserId : Nat) (txData : TxInput) (description : String)
    (txId : Nat) (_late : Option (Except String String)) (race : RaceOutcome) :
    Except String SendSuccess × WalletState × List SendAction :=
  sendTransaction cfg now st telegramUserId txData description txId race

/-! ## Manual pairing URI: generator and validator -/

/-- The fixed legacy bridge used by `generateWalletConnectURI`. -/
def bridgeChars : List Char := "https://bridge.walletconnect.org".data

/-- `generateWalletConnectURI()`, parametrised by the random draws: the
`uuidv4()` session id and the 64-hex-character key
(`crypto.randomBytes(32).toString('hex')`).  Produces
`wc:<sessionId>@1?bridge=<encodeURIComponent(bridge)>&key=<key>`. -/
def generateWalletConnectURIChars (sessionId key : List Char) : List Char :=
  "wc:".data ++ sessionId ++ "@".data ++ "1".data ++ "?bridge=".data ++
    encodeURIComponentL bridgeChars ++ "&key=".data ++ key

/-- `generateWalletConnectURI` on `String`s. -/
def generateWalletConnectURI (sessionId key : String) : String :=
  String.mk (generateWalletConnectURIChars sessionId.data key.data)

/-- `validateWalletConnectURI(uri)` on the character list. -/
def validateURIChars (u : List Char) : Bool :=
  if !isPrefixList "wc:".data u then false
  else
    match splitOnChar '?' u with
    | [base, params] =>
      (match splitOnChar '@' base with
       | [first, version] =>
         if (replaceFirstL "wc:".data first).isEmpty
             || (replaceFirstL "wc:".data first).length < 10 then false
         else if version.isEmpty ||
             (version != "1".data && version != "2".data) then false
         else if version == "1".data then
           match urlParamsGet params "bridge".data with
           | none => false
           | some b =>
             if !strIncludesL "bridge.walletconnect.org".data b then false
             else
               match urlParamsGet params "key".data with
               | none => false
               | some k => if k.length < 20 then false else true
         else true
       | _ => false)
    | _ => false

/-- `validateWalletConnectURI` on `String`. -/
def validateWalletConnectURI (uri : String) : Bool :=
  validateURIChars uri.data

/-- Shape of a `uuidv4()` draw: 36 characters, all hex digits or dashes. -/
def uuidShaped (l : List Char) : Bool :=
  l.length == 36 && l.all fun c => isHexDigitB c || c = '-'

/-- Shape of `crypto.randomBytes(32).toString('hex')`: 64 hex digits. -/
def hexKeyShaped (l : List Char) : Bool :=
  l.length == 64 && l.all isHexDigitB

/-- The acceptance condition of `validateWalletConnectURI` as the specification
words it: the string starts with `wc:`, contains exactly one `?` separating a
base from a query, the base splits on `@` into an id (after stripping the
`wc:` prefix) of length at least 10 and a version equal to `1` or `2`, and for
version `1` the query carries a `bridge` parameter containing
`bridge.walletconnect.org` and a `key` parameter of length at least 20. -/
def claimAcceptsURI (u : List Char) : Prop :=
  isPrefixList "wc:".data u = true ∧
  ∃ base query, u = base ++ '?' :: query ∧ '?' ∉ base ∧ '?' ∉ query ∧
    ∃ idPart version, base = idPart ++ '@' :: version ∧
      '@' ∉ idPart ∧ '@' ∉ version ∧
      10 ≤ (replaceFirstL "wc:".data idPart).length ∧
      (version = "1".data ∨ version = "2".data) ∧
      (version = "1".data →
        ∃ b, urlParamsGet query "bridge".data = some b ∧
          strIncludesL "bridge.walletconnect.org".data b = true ∧
          ∃ k, urlParamsGet query "key".data = some k ∧ 20 ≤ k.length)

/-! ## Concrete instances used to witness the theorems -/

instance {e a : Type} [DecidableEq e] [DecidableEq a] : DecidableEq (Except e a) := fun x y =>
  match x, y with
  | .error u, .error v => decidable_of_iff (u = v) (by simp)
  | .ok u, .ok v => decidable_of_iff (u = v) (by simp)
  | .error _, .ok _ => isFalse fun h => Except.noConfusion h
  | .ok _, .error _ => isFalse fun h => Except.noConfusion h

/-- A connected protocol-backed session (user 7, session id 5). -/
def sessA : Session :=
  { id := 5, telegramUserId := 7, connected := true, address := some "0xAAA"
    chainId := some 97, createdAt := 0, lastActivity := 1000, uri := "u"
    isManual := false, connectorConnected := true, connectorTopic := some 1
    connectorHasSignClient := true, connectorChainId := some 97
    connectorAccounts := [], notificationSent := false }

/-- A store holding exactly `sessA`. -/
def stA : WalletState :=
  { sessions := [(5, sessA)], userSessions := [(7, 5)], pendingTransactions := [] }

/-- A session whose `lastActivity` lies more than 30 minutes in the past at
time 1800002. -/
def sessOld : Session := { sessA with lastActivity := 1 }

/-- A store holding exactly the idle session `sessOld`. -/
def stOld : WalletState :=
  { sessions := [(5, sessOld)], userSessions := [(7, 5)], pendingTransactions := [] }

/-- A connected session whose connection handle is the manual fallback
(no `signClient`, no topic). -/
def sessManual : Session :=
  { sessA with connectorHasSignClient := false, connectorTopic := none,
               isManual := true }

/-- A store holding exactly `sessManual`. -/
def stManual : WalletState :=
  { sessions := [(5, sessManual)], userSessions := [(7, 5)],
    pendingTransactions := [] }

/-- A store with a fresh, not yet connected protocol-backed session. -/
def sessFresh : Session :=
  { sessA with connected := false, address := none, connectorConnected := false,
               connectorTopic := none }

/-- A store holding exactly `sessFresh`. -/
def stFresh : WalletState :=
  { sessions := [(5, sessFresh)], userSessions := [(7, 5)],
    pendingTransactions := [] }

/-- The empty store. -/
def stEmpty : WalletState :=
  { sessions := [], userSessions := [], pendingTransactions := [] }

/-! ## The registry consistency invariant -/

/-- Consistency of the three tables, as maintained by the wallet service: keys
are unique, every `userSessions` entry points at a stored session owned by that
user, and every stored session is indexed by its owner. -/
structure WF (st : WalletState) : Prop where
  nodupS : (keysA st.sessions).Nodup
  nodupU : (keysA st.userSessions).Nodup
  nodupP : (keysA st.pendingTransactions).Nodup
  userOk : ∀ p ∈ st.userSessions,
    (lookupA st.sessions p.2).map Session.telegramUserId = some p.1
  sessOk : ∀ p ∈ st.sessions,
    lookupA st.userSessions p.2.telegramUserId = some p.1

/-! ## Lemmas about the association-list map operations -/

theorem mem_of_lookupA {α : Type} {m : List (Nat × α)} {k : Nat} {v : α}
    (h : lookupA m k = some v) : (k, v) ∈ m := by
  induction m with
  | nil => exact Option.noConfusion h
  | cons p rest ih =>
    obtain ⟨k0, v0⟩ := p
    by_cases hk : k0 = k
    · subst hk
      simp [lookupA] at h
      subst h
      exact List.mem_cons_self _ _
    · simp only [lookupA, if_neg hk] at h
      exact List.mem_cons_of_mem _ (ih h)

theorem lookupA_eq_none_of_not_mem_keys {α : Type} {m : List (Nat × α)} {k : Nat}
    (h : k ∉ keysA m) : lookupA m k = none := by
  induction m with
  | nil => rfl
  | cons p rest ih =>
    obtain ⟨k0, v0⟩ := p
    simp only [keysA, List.map_cons, List.mem_cons, not_or] at h
    have hk : k0 ≠ k := fun he => h.1 he.symm
    simp only [lookupA, if_neg hk]
    exact ih h.2

theorem mem_keys_of_lookupA {α : Type} {m : List (Nat × α)} {k : Nat} {v : α}
    (h : lookupA m k = some v) : k ∈ keysA m := by
  have hm := mem_of_lookupA h
  exact List.mem_map_of_mem Prod.fst hm

theorem lookupA_of_mem_nodup {α : Type} {m : List (Nat × α)} {k : Nat} {v : α}
    (hnd : (keysA m).Nodup) (h : (k, v) ∈ m) : lookupA m k = some v := by
  induction m with
  | nil => exact absurd h (List.not_mem_nil _)
  | cons p rest ih =>
    obtain ⟨k0, v0⟩ := p
    simp only [keysA, List.map_cons, List.nodup_cons] at hnd
    rcases List.mem_cons.1 h with h1 | h1
    · cases h1
      simp [lookupA]
    · have hk0 : k0 ≠ k := by
        intro he
        subst he
        exact hnd.1 (List.mem_map_of_mem Prod.fst h1)
      simp only [lookupA, if_neg hk0]
      exact ih hnd.2 h1

theorem lookupA_insertA_self {α : Type} {m : List (Nat × α)} {k : Nat} {v : α} :
    lookupA (insertA m k v) k = some v := by
  induction m with
  | nil => simp [insertA, lookupA]
  | cons p rest ih =>
    obtain ⟨k0, v0⟩ := p
    by_cases hk : k0 = k
    · subst hk
      simp [insertA, lookupA]
    · simp only [insertA, if_neg hk, lookupA, if_neg hk]
      exact ih

theorem lookupA_insertA_ne {α : Type} {m : List (Nat × α)} {k k' : Nat} {v : α}
    (h : k' ≠ k) : lookupA (insertA m k v) k' = lookupA m k' := by
  have hk : k ≠ k' := fun he => h he.symm
  induction m with
  | nil => simp [insertA, lookupA, if_neg hk]
  | cons p rest ih =>
    obtain ⟨k0, v0⟩ := p
    by_cases hk0 : k0 = k
    · subst hk0
      simp [insertA, lookupA, if_neg hk]
    · simp only [insertA, if_neg hk0, lookupA]
      by_cases hk' : k0 = k'
      · simp only [if_pos hk']
      · simp only [if_neg hk']
        exact ih

theorem lookupA_eraseA_ne {α : Type} {m : List (Nat × α)} {k k' : Nat}
    (h : k' ≠ k) : lookupA (eraseA m k) k' = lookupA m k' := by
  induction m with
  | nil => rfl
  | cons p rest ih =>
    obtain ⟨k0, v0⟩ := p
    by_cases hk0 : k0 = k
    · subst hk0
      have hne : k0 ≠ k' := fun he => h (he.symm)
      simp [eraseA, lookupA, if_neg hne]
    · simp only [eraseA, if_neg hk0, lookupA]
      by_cases hk' : k0 = k'
      · simp only [if_pos hk']
      · simp only [if_neg hk']
        exact ih

theorem lookupA_eraseA_self {α : Type} {m : List (Nat × α)} {k : Nat}
    (hnd : (keysA m).Nodup) : lookupA (eraseA m k) k = none := by
  induction m with
  | nil => rfl
  | cons p rest ih =>
    obtain ⟨k0, v0⟩ := p
    simp only [keysA, List.map_cons, List.nodup_cons] at hnd
    by_cases hk : k0 = k
    · subst hk
      simp only [eraseA, if_pos rfl]
      exact lookupA_eq_none_of_not_mem_keys hnd.1
    · simp only [eraseA, if_neg hk, lookupA, if_neg hk]
      exact ih hnd.2

theorem eraseA_sublist {α : Type} (m : List (Nat × α)) (k : Nat) :
    List.Sublist (eraseA m k) m := by
  induction m with
  | nil => exact List.Sublist.refl _
  | cons p rest ih =>
    obtain ⟨k0, v0⟩ := p
    by_cases hk : k0 = k
    · simp only [eraseA, if_pos hk]
      exact List.sublist_cons_self _ _
    · simp only [eraseA, if_neg hk]
      exact List.Sublist.cons₂ _ ih

theorem mem_of_mem_eraseA {α : Type} {m : List (Nat × α)} {k : Nat} {p : Nat × α}
    (h : p ∈ eraseA m k) : p ∈ m :=
  (eraseA_sublist m k).subset h

theorem keysA_eraseA_nodup {α : Type} {m : List (Nat × α)} {k : Nat}
    (hnd : (keysA m).Nodup) : (keysA (eraseA m k)).Nodup :=
  hnd.sublist ((eraseA_sublist m k).map Prod.fst)

theorem mem_eraseA_ne_key {α : Type} {m : List (Nat × α)} {k : Nat} {p : Nat × α}
    (hnd : (keysA m).Nodup) (h : p ∈ eraseA m k) : p.1 ≠ k := by
  intro he
  obtain ⟨k1, v1⟩ := p
  simp only at he
  subst he
  have hl : lookupA (eraseA m k1) k1 = some v1 :=
    lookupA_of_mem_nodup (keysA_eraseA_nodup hnd) h
  rw [lookupA_eraseA_self hnd] at hl
  exact Option.noConfusion hl

theorem lookupA_some_of_eraseA {α : Type} {m : List (Nat × α)} {k k' : Nat} {v : α}
    (hnd : (keysA m).Nodup) (h : lookupA (eraseA m k) k' = some v) :
    lookupA m k' = some v := by
  by_cases hk : k' = k
  · subst hk
    rw [lookupA_eraseA_self hnd] at h
    exact Option.noConfusion h
  · rwa [lookupA_eraseA_ne hk] at h

theorem mem_keysA_insertA {α : Type} {m : List (Nat × α)} {k k' : Nat} {v : α}
    (h : k' ∈ keysA (insertA m k v)) : k' ∈ keysA m ∨ k' = k := by
  induction m with
  | nil =>
    simp only [insertA, keysA, List.map_cons, List.map_nil, List.mem_singleton] at h
    exact Or.inr h
  | cons p rest ih =>
    obtain ⟨k0, v0⟩ := p
    by_cases hk : k0 = k
    · subst hk
      simp [insertA, keysA] at h
      simp only [keysA, List.map_cons, List.mem_cons]
      rcases h with h | ⟨x, hx⟩
      · exact Or.inr h
      · exact Or.inl (Or.inr (List.mem_map_of_mem Prod.fst hx))
    · simp only [insertA, if_neg hk, keysA, List.map_cons, List.mem_cons] at h
      simp only [keysA, List.map_cons, List.mem_cons]
      rcases h with h | h
      · exact Or.inl (Or.inl h)
      · rcases ih h with h1 | h1
        · exact Or.inl (Or.inr h1)
        · exact Or.inr h1

theorem keysA_insertA_nodup {α : Type} {m : List (Nat × α)} {k : Nat} {v : α}
    (hnd : (keysA m).Nodup) : (keysA (insertA m k v)).Nodup := by
  induction m with
  | nil => simp [insertA, keysA]
  | cons p rest ih =>
    obtain ⟨k0, v0⟩ := p
    simp only [keysA, List.map_cons, List.nodup_cons] at hnd
    by_cases hk : k0 = k
    · subst hk
      simp [insertA, keysA]
      refine ⟨fun x hx => hnd.1 (List.mem_map_of_mem Prod.fst hx), ?_⟩
      simpa [keysA] using hnd.2
    · simp only [insertA, if_neg hk, keysA, List.map_cons, List.nodup_cons]
      constructor
      · intro hm
        rcases mem_keysA_insertA hm with h1 | h1
        · exact hnd.1 h1
        · exact hk h1
      · exact ih hnd.2

theorem mem_insertA {α : Type} {m : List (Nat × α)} {k : Nat} {v : α} {p : Nat × α}
    (h : p ∈ insertA m k v) : p = (k, v) ∨ p ∈ m := by
  induction m with
  | nil =>
    simp only [insertA, List.mem_singleton] at h
    exact Or.inl h
  | cons q rest ih =>
    obtain ⟨k0, v0⟩ := q
    by_cases hk : k0 = k
    · subst hk
      simp [insertA] at h
      rcases h with h | h
      · exact Or.inl (by simp [h])
      · exact Or.inr (List.mem_cons_of_mem _ h)
    · simp only [insertA, if_neg hk, List.mem_cons] at h
      rcases h with h | h
      · exact Or.inr (List.mem_cons.2 (Or.inl h))
      · rcases ih h with h1 | h1
        · exact Or.inl h1
        · exact Or.inr (List.mem_cons_of_mem _ h1)

theorem WF.user_to_session {st : WalletState} {u sid : Nat} (h : WF st)
    (hu : lookupA st.userSessions u = some sid) :
    ∃ s, lookupA st.sessions sid = some s ∧ s.telegramUserId = u := by
  have hm := h.userOk (u, sid) (mem_of_lookupA hu)
  cases hl : lookupA st.sessions sid with
  | none => rw [hl] at hm; exact Option.noConfusion hm
  | some s =>
    rw [hl] at hm
    simp only [Option.map_some'] at hm
    exact ⟨s, rfl, Option.some.inj hm⟩

theorem WF.session_to_user {st : WalletState} {sid : Nat} {s : Session}
    (h : WF st) (hs : lookupA st.sessions sid = some s) :
    lookupA st.userSessions s.telegramUserId = some sid :=
  h.sessOk (sid, s) (mem_of_lookupA hs)

theorem WF.at_most_one {st : WalletState} {sid sid' : Nat} {s s' : Session}
    (h : WF st) (hs : lookupA st.sessions sid = some s)
    (hs' : lookupA st.sessions sid' = some s')
    (he : s.telegramUserId = s'.telegramUserId) : sid = sid' := by
  have h1 := h.session_to_user hs
  have h2 := h.session_to_user hs'
  rw [he] at h1
  rw [h1] at h2
  exact Option.some.inj h2

/-! ## Equation lemmas for the registry operations -/

theorem cleanupSession_eq_none {st : WalletState} {sid : Nat}
    (h : lookupA st.sessions sid = none) : cleanupSession st sid = st := by
  unfold cleanupSession
  rw [h]

theorem cleanupSession_eq_some {st : WalletState} {sid : Nat} {s : Session}
    (h : lookupA st.sessions sid = some s) :
    cleanupSession st sid =
      { sessions := eraseA st.sessions sid
        userSessions := eraseA st.userSessions s.telegramUserId
        pendingTransactions := eraseA st.pendingTransactions sid } := by
  unfold cleanupSession
  rw [h]

theorem disconnectWallet_eq_none {st : WalletState} {u : Nat}
    (h : lookupA st.userSessions u = none) : disconnectWallet st u = st := by
  unfold disconnectWallet
  rw [h]

theorem disconnectWallet_eq_some {st : WalletState} {u sid : Nat}
    (h : lookupA st.userSessions u = some sid) :
    disconnectWallet st u = cleanupSession st sid := by
  unfold disconnectWallet
  rw [h]

theorem checkConnection_eq_noSession {now : Nat} {st : WalletState} {u : Nat}
    (h : lookupA st.userSessions u = none) :
    checkConnection now st u =
      ({ connected := false, reason := some "No session found" }, st) := by
  unfold checkConnection
  rw [h]

theorem checkConnection_eq_expired {now : Nat} {st : WalletState} {u sid : Nat}
    (hu : lookupA st.userSessions u = some sid)
    (hl : lookupA st.sessions sid = none) :
    checkConnection now st u =
      ({ connected := false, reason := some "Session expired" },
       { st with userSessions := eraseA st.userSessions u }) := by
  unfold checkConnection
  simp only [hu, hl]

theorem checkConnection_eq_timeout {now : Nat} {st : WalletState} {u sid : Nat}
    {s : Session} (hu : lookupA st.userSessions u = some sid)
    (hl : lookupA st.sessions sid = some s)
    (ht : now - s.lastActivity > sessionExpireMs) :
    checkConnection now st u =
      ({ connected := false, reason := some "Session timeout" },
       cleanupSession st sid) := by
  unfold checkConnection
  simp only [hu, hl]
  rw [if_pos ht]

theorem checkConnection_eq_live {now : Nat} {st : WalletState} {u sid : Nat}
    {s : Session} (hu : lookupA st.userSessions u = some sid)
    (hl : lookupA st.sessions sid = some s)
    (ht : ¬ now - s.lastActivity > sessionExpireMs) :
    checkConnection now st u =
      ({ connected := s.connected, address := s.address, chainId := s.chainId
         sessionId := some s.id }, st) := by
  unfold checkConnection
  simp only [hu, hl]
  rw [if_neg ht]

/-! ## Preservation of the invariant -/

theorem wf_set_pending {st : WalletState} (h : WF st) (k : Nat) (p : PendingTx) :
    WF { st with pendingTransactions := insertA st.pendingTransactions k p } :=
  ⟨h.nodupS, h.nodupU, keysA_insertA_nodup h.nodupP, h.userOk, h.sessOk⟩

theorem wf_insert_update {st : WalletState} {sid : Nat} {s s' : Session}
    (h : WF st) (hs : lookupA st.sessions sid = some s)
    (huid : s'.telegramUserId = s.telegramUserId) :
    WF { st with sessions := insertA st.sessions sid s' } := by
  refine ⟨keysA_insertA_nodup h.nodupS, h.nodupU, h.nodupP, ?_, ?_⟩
  · intro q hq
    have horig := h.userOk q hq
    by_cases hqs : q.2 = sid
    · rw [hqs] at horig ⊢
      rw [lookupA_insertA_self]
      rw [hs] at horig
      simp only [Option.map_some'] at horig ⊢
      rw [huid]
      exact horig
    · rw [lookupA_insertA_ne hqs]
      exact horig
  · intro q hq
    rcases mem_insertA hq with h1 | h1
    · subst h1
      show lookupA st.userSessions s'.telegramUserId = some sid
      rw [huid]
      exact h.session_to_user hs
    · exact h.sessOk q h1

theorem wf_modifySession {st : WalletState} {sid : Nat} {f : Session → Session}
    (h : WF st) (hf : ∀ s, (f s).telegramUserId = s.telegramUserId) :
    WF (modifySession st sid f) := by
  unfold modifySession
  cases hl : lookupA st.sessions sid with
  | none => exact h
  | some s => exact wf_insert_update h hl (hf s)

theorem wf_cleanupSession {st : WalletState} (h : WF st) (sid : Nat) :
    WF (cleanupSession st sid) := by
  cases hl : lookupA st.sessions sid with
  | none => rw [cleanupSession_eq_none hl]; exact h
  | some s =>
    rw [cleanupSession_eq_some hl]
    refine ⟨keysA_eraseA_nodup h.nodupS, keysA_eraseA_nodup h.nodupU,
      keysA_eraseA_nodup h.nodupP, ?_, ?_⟩
    · intro q hq
      have hqm : q ∈ st.userSessions := mem_of_mem_eraseA hq
      have horig := h.userOk q hqm
      have hq1 : q.1 ≠ s.telegramUserId := mem_eraseA_ne_key h.nodupU hq
      have hq2 : q.2 ≠ sid := by
        intro he
        rw [he, hl] at horig
        simp only [Option.map_some'] at horig
        exact hq1 (Option.some.inj horig).symm
      rw [lookupA_eraseA_ne hq2]
      exact horig
    · intro q hq
      have hqm : q ∈ st.sessions := mem_of_mem_eraseA hq
      have horig := h.sessOk q hqm
      have hq1 : q.1 ≠ sid := mem_eraseA_ne_key h.nodupS hq
      have hq2 : q.2.telegramUserId ≠ s.telegramUserId := by
        intro he
        have hsu := h.session_to_user hl
        rw [he, hsu] at horig
        exact hq1 (Option.some.inj horig).symm
      rw [lookupA_eraseA_ne hq2]
      exact horig

theorem wf_disconnectWallet {st : WalletState} (h : WF st) (u : Nat) :
    WF (disconnectWallet st u) := by
  cases hu : lookupA st.userSessions u with
  | none => rw [disconnectWallet_eq_none hu]; exact h
  | some sid => rw [disconnectWallet_eq_some hu]; exact wf_cleanupSession h sid

theorem disconnect_user_none {st : WalletState} (h : WF st) (u : Nat) :
    lookupA (disconnectWallet st u).userSessions u = none := by
  cases hu : lookupA st.userSessions u with
  | none => rw [disconnectWallet_eq_none hu]; exact hu
  | some sid =>
    obtain ⟨s, hs, huid⟩ := h.user_to_session hu
    rw [disconnectWallet_eq_some hu, cleanupSession_eq_some hs]
    show lookupA (eraseA st.userSessions s.telegramUserId) u = none
    rw [huid]
    exact lookupA_eraseA_self h.nodupU

theorem disconnect_sessions_mono {st : WalletState} {u sid : Nat} {s : Session}
    (h : WF st) (hx : lookupA (disconnectWallet st u).sessions sid = some s) :
    lookupA st.sessions sid = some s := by
  cases hu : lookupA st.userSessions u with
  | none => rwa [disconnectWallet_eq_none hu] at hx
  | some sid0 =>
    rw [disconnectWallet_eq_some hu] at hx
    cases hl : lookupA st.sessions sid0 with
    | none => rwa [cleanupSession_eq_none hl] at hx
    | some s0 =>
      rw [cleanupSession_eq_some hl] at hx
      exact lookupA_some_of_eraseA h.nodupS hx

theorem wf_insert_pair {st : WalletState} {u sid : Nat} {s : Session} (h : WF st)
    (hu : lookupA st.userSessions u = none)
    (hs : lookupA st.sessions sid = none)
    (huid : s.telegramUserId = u) :
    WF { st with sessions := insertA st.sessions sid s,
                 userSessions := insertA st.userSessions u sid } := by
  refine ⟨keysA_insertA_nodup h.nodupS, keysA_insertA_nodup h.nodupU, h.nodupP,
    ?_, ?_⟩
  · intro q hq
    rcases mem_insertA hq with h1 | h1
    · subst h1
      show (lookupA (insertA st.sessions sid s) sid).map Session.telegramUserId
        = some u
      rw [lookupA_insertA_self]
      simp only [Option.map_some']
      rw [huid]
    · have horig := h.userOk q h1
      have hq2 : q.2 ≠ sid := by
        intro he
        rw [he, hs] at horig
        simp at horig
      rw [lookupA_insertA_ne hq2]
      exact horig
  · intro q hq
    rcases mem_insertA hq with h1 | h1
    · subst h1
      show lookupA (insertA st.userSessions u sid) s.telegramUserId = some sid
      rw [huid, lookupA_insertA_self]
    · have horig := h.sessOk q h1
      have hqu : q.2.telegramUserId ≠ u := by
        intro he
        rw [he, hu] at horig
        exact Option.noConfusion horig
      rw [lookupA_insertA_ne hqu]
      exact horig

theorem wf_createSessionStep {cfg : Config} {now : Nat} {st : WalletState}
    {u sid : Nat} {uri : String} {a b c : Bool} (h : WF st)
    (hfresh : lookupA st.sessions sid = none) :
    WF (createSessionStep cfg now st u sid uri a b c) := by
  unfold createSessionStep
  by_cases hc : (lookupA st.userSessions u).isSome
  · rw [if_pos hc]
    have h1 : WF (disconnectWallet st u) := wf_disconnectWallet h u
    have hu1 := disconnect_user_none h u
    have hs1 : lookupA (disconnectWallet st u).sessions sid = none := by
      cases hx : lookupA (disconnectWallet st u).sessions sid with
      | none => rfl
      | some s0 =>
        have := disconnect_sessions_mono h hx
        rw [hfresh] at this
        exact Option.noConfusion this
    exact wf_insert_pair h1 hu1 hs1 rfl
  · rw [if_neg hc]
    have hu0 : lookupA st.userSessions u = none := by
      cases hx : lookupA st.userSessions u with
      | none => rfl
      | some v => rw [hx] at hc; exact absurd rfl hc
    exact wf_insert_pair h hu0 hfresh rfl

theorem wf_cleanupExpiredSessions {now : Nat} {st : WalletState} (h : WF st) :
    WF (cleanupExpiredSessions now st) := by
  unfold cleanupExpiredSessions
  generalize st.sessions = l
  induction l generalizing st with
  | nil => exact h
  | cons p rest ih =>
    simp only [List.foldl_cons]
    apply ih
    split
    · exact wf_cleanupSession h p.1
    · exact h

theorem wf_checkConnection {now : Nat} {st : WalletState} (h : WF st) (u : Nat) :
    WF (checkConnection now st u).2 := by
  cases hu : lookupA st.userSessions u with
  | none => rw [checkConnection_eq_noSession hu]; exact h
  | some sid =>
    cases hl : lookupA st.sessions sid with
    | none =>
      rw [checkConnection_eq_expired hu hl]
      refine ⟨h.nodupS, keysA_eraseA_nodup h.nodupU, h.nodupP, ?_, ?_⟩
      · intro q hq
        exact h.userOk q (mem_of_mem_eraseA hq)
      · intro q hq
        have horig := h.sessOk q hq
        have hne : q.2.telegramUserId ≠ u := by
          intro he
          rw [he, hu] at horig
          have h1 := (Option.some.inj horig).symm
          have h2 : lookupA st.sessions q.1 = some q.2 :=
            lookupA_of_mem_nodup h.nodupS hq
          rw [h1, hl] at h2
          exact Option.noConfusion h2
        rw [lookupA_eraseA_ne hne]
        exact horig
    | some s =>
      by_cases ht : now - s.lastActivity > sessionExpireMs
      · rw [checkConnection_eq_timeout hu hl ht]
        exact wf_cleanupSession h sid
      · rw [checkConnection_eq_live hu hl ht]
        exact h

theorem wf_sendCatch {st : WalletState} (h : WF st) (u : Nat) (msg : String)
    (trace : List SendAction) : WF (sendCatch st u msg trace).2.1 := by
  unfold sendCatch
  split
  · exact h
  split
  · exact h
  split
  · exact h
  dsimp only
  split
  · exact h
  split
  · exact h
  · exact wf_set_pending h _ _

theorem wf_sendTransaction {cfg : Config} {now : Nat} {st : WalletState}
    {u : Nat} {txd : TxInput} {d : String} {i : Nat} {race : RaceOutcome}
    (h : WF st) : WF (sendTransaction cfg now st u txd d i race).2.1 := by
  unfold sendTransaction
  have hc2 : WF (checkConnection now st u).2 := wf_checkConnection h u
  dsimp only
  split
  · exact wf_sendCatch hc2 _ _ _
  split
  · exact wf_sendCatch hc2 _ _ _
  split
  · exact wf_sendCatch hc2 _ _ _
  split
  · exact wf_sendCatch hc2 _ _ _
  · split
    · split
      · exact wf_modifySession (wf_set_pending hc2 _ _) fun s => rfl
      · exact wf_modifySession (wf_set_pending (wf_set_pending hc2 _ _) _ _)
          fun s => rfl
    · exact wf_sendCatch (wf_set_pending hc2 _ _) _ _ _
    · exact wf_sendCatch (wf_set_pending hc2 _ _) _ _ _

theorem wf_approvalResolveOk {cfg : Config} {now : Nat} {st1 : WalletState}
    {sid : Nat} {accounts : List String} {chains : Option (List String)}
    {q : Except String String} (h : WF st1) :
    WF (approvalResolveOk cfg now st1 sid accounts chains q).1 := by
  unfold approvalResolveOk
  have h2 : WF (modifySession st1 sid fun s =>
      { s with connectorChainId := approvalChainId cfg chains q }) :=
    wf_modifySession h fun s => rfl
  dsimp only
  split
  · exact h2
  split
  · exact h2
  · rename_i addr heq sData hl
    exact wf_insert_update h2 hl rfl

theorem wf_approvalResolve {cfg : Config} {now : Nat} {st : WalletState}
    {sid topic : Nat} {accounts : List String} {chains : Option (List String)}
    {q : Except String String} (h : WF st) :
    WF (approvalResolve cfg now st sid topic accounts chains q).1 := by
  unfold approvalResolve
  have h1 : WF (modifySession st sid fun s =>
      { s with connectorConnected := true, connectorTopic := some topic,
               connectorAccounts := accounts }) :=
    wf_modifySession h fun s => rfl
  dsimp only
  rcases chains with _ | l
  · exact wf_approvalResolveOk h1
  · cases l with
    | nil => exact h1
    | cons c cs => exact wf_approvalResolveOk h1

/-! ### Equation lemmas for the bot-layer handler -/

theorem hwcGuard_eq_noIndex {st : WalletState} {u : Nat}
    (hu : lookupA st.userSessions u = none) : hwcGuard st u = (st, true, none) := by
  unfold hwcGuard
  rw [hu]

theorem hwcGuard_eq_noSession {st : WalletState} {u sid : Nat}
    (hu : lookupA st.userSessions u = some sid)
    (hl : lookupA st.sessions sid = none) :
    hwcGuard st u = (st, true, some sid) := by
  unfold hwcGuard
  simp only [hu, hl]

theorem hwcGuard_eq_dup {st : WalletState} {u sid : Nat} {s : Session}
    (hu : lookupA st.userSessions u = some sid)
    (hl : lookupA st.sessions sid = some s)
    (hf : s.notificationSent = true) :
    hwcGuard st u = (st, false, some sid) := by
  unfold hwcGuard
  simp only [hu, hl, hf, if_true]

theorem hwcGuard_eq_fresh {st : WalletState} {u sid : Nat} {s : Session}
    (hu : lookupA st.userSessions u = some sid)
    (hl : lookupA st.sessions sid = some s)
    (hf : s.notificationSent = false) :
    hwcGuard st u =
      ({ st with sessions := (insertA st.sessions sid
          { s with notificationSent := true }) }, true, some sid) := by
  unfold hwcGuard
  simp only [hu, hl, hf, Bool.false_eq_true, if_false]

theorem hwcFinish_eq_none {now : Nat} {st : WalletState} {a : String}
    {cid : Option Nat} : hwcFinish now st none a cid = st := rfl

theorem hwcFinish_eq_noSession {now : Nat} {st : WalletState} {sid : Nat}
    {a : String} {cid : Option Nat} (hl : lookupA st.sessions sid = none) :
    hwcFinish now st (some sid) a cid = st := by
  unfold hwcFinish
  simp only [hl]

theorem hwcFinish_eq_some {now : Nat} {st : WalletState} {sid : Nat}
    {s : Session} {a : String} {cid : Option Nat}
    (hl : lookupA st.sessions sid = some s) :
    hwcFinish now st (some sid) a cid =
      { st with sessions := (insertA st.sessions sid
          { s with connected := true, address := some a, chainId := cid,
                   lastActivity := now }) } := by
  unfold hwcFinish
  simp only [hl]

theorem handleWalletConnected_eq {now : Nat} {st : WalletState} {u : Nat}
    {a : String} {cid : Option Nat} :
    handleWalletConnected now st u a cid =
      (if (hwcGuard st u).2.1 then
        (hwcFinish now (hwcGuard st u).1 (hwcGuard st u).2.2 a cid, true)
       else ((hwcGuard st u).1, false)) := rfl

theorem wf_hwcGuard {st : WalletState} (h : WF st) (u : Nat) :
    WF (hwcGuard st u).1 := by
  cases hu : lookupA st.userSessions u with
  | none => rw [hwcGuard_eq_noIndex hu]; exact h
  | some sid =>
    cases hl : lookupA st.sessions sid with
    | none => rw [hwcGuard_eq_noSession hu hl]; exact h
    | some s =>
      cases hf : s.notificationSent with
      | true => rw [hwcGuard_eq_dup hu hl hf]; exact h
      | false =>
        rw [hwcGuard_eq_fresh hu hl hf]
        exact wf_insert_update h hl rfl

theorem wf_hwcFinish {now : Nat} {st : WalletState} {sidOpt : Option Nat}
    {a : String} {cid : Option Nat} (h : WF st) :
    WF (hwcFinish now st sidOpt a cid) := by
  cases sidOpt with
  | none => rw [hwcFinish_eq_none]; exact h
  | some sid =>
    cases hl : lookupA st.sessions sid with
    | none => rw [hwcFinish_eq_noSession hl]; exact h
    | some s =>
      rw [hwcFinish_eq_some hl]
      exact wf_insert_update h hl rfl

theorem wf_handleWalletConnected {now : Nat} {st : WalletState} {u : Nat}
    {a : String} {cid : Option Nat} (h : WF st) :
    WF (handleWalletConnected now st u a cid).1 := by
  rw [handleWalletConnected_eq]
  split
  · exact wf_hwcFinish (wf_hwcGuard h u)
  · exact wf_hwcGuard h u

/-! ## The sweep only removes entries -/

theorem cleanup_lookup_user_some {st : WalletState} {k u sid : Nat} (h : WF st)
    (hx : lookupA (cleanupSession st k).userSessions u = some sid) :
    lookupA st.userSessions u = some sid := by
  cases hl : lookupA st.sessions k with
  | none => rwa [cleanupSession_eq_none hl] at hx
  | some s =>
    rw [cleanupSession_eq_some hl] at hx
    exact lookupA_some_of_eraseA h.nodupU hx

theorem cleanup_lookup_sessions_some {st : WalletState} {k sid : Nat}
    {s : Session} (h : WF st)
    (hx : lookupA (cleanupSession st k).sessions sid = some s) :
    lookupA st.sessions sid = some s := by
  cases hl : lookupA st.sessions k with
  | none => rwa [cleanupSession_eq_none hl] at hx
  | some s0 =>
    rw [cleanupSession_eq_some hl] at hx
    exact lookupA_some_of_eraseA h.nodupS hx

theorem sweep_lookup_user_some {now : Nat} {st : WalletState} {u sid : Nat}
    (h : WF st)
    (hx : lookupA (cleanupExpiredSessions now st).userSessions u = some sid) :
    lookupA st.userSessions u = some sid := by
  unfold cleanupExpiredSessions at hx
  -- generalize over the folded list and the accumulator
  suffices hgen : ∀ (l : List (Nat × Session)) (acc : WalletState), WF acc →
      lookupA (l.foldl (fun acc p =>
        if now - p.2.lastActivity > sessionExpireMs then cleanupSession acc p.1
        else acc) acc).userSessions u = some sid →
      lookupA acc.userSessions u = some sid by
    exact hgen st.sessions st h hx
  intro l
  induction l with
  | nil => intro acc _ hx; exact hx
  | cons p rest ih =>
    intro acc hacc hx
    simp only [List.foldl_cons] at hx
    by_cases hexp : now - p.2.lastActivity > sessionExpireMs
    · rw [if_pos hexp] at hx
      exact cleanup_lookup_user_some hacc
        (ih (cleanupSession acc p.1) (wf_cleanupSession hacc p.1) hx)
    · rw [if_neg hexp] at hx
      exact ih acc hacc hx

theorem sweep_lookup_sessions_some {now : Nat} {st : WalletState} {sid : Nat}
    {s : Session} (h : WF st)
    (hx : lookupA (cleanupExpiredSessions now st).sessions sid = some s) :
    lookupA st.sessions sid = some s := by
  unfold cleanupExpiredSessions at hx
  suffices hgen : ∀ (l : List (Nat × Session)) (acc : WalletState), WF acc →
      lookupA (l.foldl (fun acc p =>
        if now - p.2.lastActivity > sessionExpireMs then cleanupSession acc p.1
        else acc) acc).sessions sid = some s →
      lookupA acc.sessions sid = some s by
    exact hgen st.sessions st h hx
  intro l
  induction l with
  | nil => intro acc _ hx; exact hx
  | cons p rest ih =>
    intro acc hacc hx
    simp only [List.foldl_cons] at hx
    by_cases hexp : now - p.2.lastActivity > sessionExpireMs
    · rw [if_pos hexp] at hx
      exact cleanup_lookup_sessions_some hacc
        (ih (cleanupSession acc p.1) (wf_cleanupSession hacc p.1) hx)
    · rw [if_neg hexp] at hx
      exact ih acc hacc hx

/-! ### Equation lemmas for the transaction relay -/

theorem sendCatch_eq_userRejected {st : WalletState} {u : Nat} {msg : String}
    {tr : List SendAction} (h1 : strIncludes msg "User rejected" = true) :
    sendCatch st u msg tr = (.error "Transaction was rejected by user", st, tr) := by
  unfold sendCatch
  simp [h1]

theorem sendCatch_eq_timeoutMsg {st : WalletState} {u : Nat} {msg : String}
    {tr : List SendAction} (h1 : strIncludes msg "User rejected" = false)
    (h2 : strIncludes msg "timeout" = true) :
    sendCatch st u msg tr =
      (.error "Transaction request timed out. Please try again.", st, tr) := by
  unfold sendCatch
  simp [h1, h2]

theorem sendCatch_eq_configMsg {st : WalletState} {u : Nat} {msg : String}
    {tr : List SendAction} (h1 : strIncludes msg "User rejected" = false)
    (h2 : strIncludes msg "timeout" = false)
    (h3 : strIncludes msg "Missing or invalid" = true) :
    sendCatch st u msg tr =
      (.error "WalletConnect configuration error. Please reconnect your wallet.",
       st, tr) := by
  unfold sendCatch
  simp [h1, h2, h3]

theorem sendCatch_eq_generic_mark {st : WalletState} {u sid : Nat} {msg : String}
    {p : PendingTx} {tr : List SendAction}
    (h1 : strIncludes msg "User rejected" = false)
    (h2 : strIncludes msg "timeout" = false)
    (h3 : strIncludes msg "Missing or invalid" = false)
    (hu : lookupA st.userSessions u = some sid)
    (hp : lookupA st.pendingTransactions sid = some p) :
    sendCatch st u msg tr =
      (.error ("Transaction failed: " ++ msg),
       { st with pendingTransactions := (insertA st.pendingTransactions sid
          { p with status := "failed", error := some msg }) }, tr) := by
  unfold sendCatch
  simp [h1, h2, h3, hu, hp]

theorem sendCatch_eq_generic_noPending {st : WalletState} {u sid : Nat}
    {msg : String} {tr : List SendAction}
    (h1 : strIncludes msg "User rejected" = false)
    (h2 : strIncludes msg "timeout" = false)
    (h3 : strIncludes msg "Missing or invalid" = false)
    (hu : lookupA st.userSessions u = some sid)
    (hp : lookupA st.pendingTransactions sid = none) :
    sendCatch st u msg tr = (.error ("Transaction failed: " ++ msg), st, tr) := by
  unfold sendCatch
  simp [h1, h2, h3, hu, hp]

theorem sendTransaction_eq_notConnected {cfg : Config} {now : Nat}
    {st : WalletState} {u : Nat} {txd : TxInput} {d : String} {i : Nat}
    {race : RaceOutcome}
    (hc : (checkConnection now st u).1.connected = false) :
    sendTransaction cfg now st u txd d i race =
      sendCatch (checkConnection now st u).2 u "Wallet not connected" [] := by
  unfold sendTransaction
  simp only [hc, Bool.not_false, if_true]

theorem sendTransaction_eq_configError {cfg : Config} {now : Nat}
    {st : WalletState} {u sid : Nat} {s : Session} {txd : TxInput} {d : String}
    {i : Nat} {race : RaceOutcome}
    (hu : lookupA st.userSessions u = some sid)
    (hl : lookupA st.sessions sid = some s)
    (ht : ¬ now - s.lastActivity > sessionExpireMs)
    (hcon : s.connected = true)
    (hbad : (!s.connectorHasSignClient || s.connectorTopic.isNone) = true) :
    sendTransaction cfg now st u txd d i race =
      sendCatch st u
        "WalletConnect session not properly established. Please reconnect your wallet."
        [] := by
  unfold sendTransaction
  rw [checkConnection_eq_live hu hl ht]
  simp only [hcon, Bool.not_true, Bool.false_eq_true, if_false, hu, hl, hbad,
    if_true]

theorem sendTransaction_eq_run {cfg : Config} {now : Nat}
    {st : WalletState} {u sid : Nat} {s : Session} {txd : TxInput} {d : String}
    {i : Nat} {race : RaceOutcome}
    (hu : lookupA st.userSessions u = some sid)
    (hl : lookupA st.sessions sid = some s)
    (ht : ¬ now - s.lastActivity > sessionExpireMs)
    (hcon : s.connected = true)
    (hok : (!s.connectorHasSignClient || s.connectorTopic.isNone) = false) :
    sendTransaction cfg now st u txd d i race =
      (let pending := mkPendingTx i d (mkTxRequest cfg s txd) now
       let st1 := { st with pendingTransactions :=
          (insertA st.pendingTransactions sid pending) }
       let trace := [SendAction.recordPending sid pending,
                     SendAction.issueRequest sid (mkTxRequest cfg s txd)]
       match race with
       | .resolved hash =>
         let st2 :=
           match lookupA st1.pendingTransactions sid with
           | none => st1
           | some p =>
             { st1 with pendingTransactions :=
                (insertA st1.pendingTransactions sid
                  { p with status := "sent", txHash := some hash }) }
         (.ok { success := true, txHash := hash, txId := i,
                address := s.address },
          modifySession st2 sid fun q => { q with lastActivity := now }, trace)
       | .rejected msg => sendCatch st1 u msg trace
       | .timedOut =>
         sendCatch st1 u "Transaction request timeout (60s)" trace) := by
  unfold sendTransaction
  rw [checkConnection_eq_live hu hl ht]
  simp only [hcon, Bool.not_true, Bool.false_eq_true, if_false, hu, hl, hok]

/-! ## Lemmas about the string primitives -/

theorem splitOnChar_ne_nil (sep : Char) (l : List Char) :
    splitOnChar sep l ≠ [] := by
  cases l with
  | nil => simp [splitOnChar]
  | cons c rest =>
    simp only [splitOnChar]
    by_cases hc : c = sep
    · simp [hc]
    · simp only [if_neg hc]
      cases splitOnChar sep rest with
      | nil => simp
      | cons h t => simp

theorem splitOnChar_nosep {sep : Char} {l : List Char} (h : sep ∉ l) :
    splitOnChar sep l = [l] := by
  induction l with
  | nil => rfl
  | cons c rest ih =>
    simp only [List.mem_cons, not_or] at h
    have hc : c ≠ sep := fun he => h.1 he.symm
    simp only [splitOnChar, if_neg hc, ih h.2]

theorem splitOnChar_append_sep {sep : Char} {l1 : List Char} (l2 : List Char)
    (h : sep ∉ l1) :
    splitOnChar sep (l1 ++ sep :: l2) = l1 :: splitOnChar sep l2 := by
  induction l1 with
  | nil => simp [splitOnChar]
  | cons c rest ih =>
    simp only [List.mem_cons, not_or] at h
    have hc : c ≠ sep := fun he => h.1 he.symm
    show splitOnChar sep (c :: (rest ++ sep :: l2))
      = (c :: rest) :: splitOnChar sep l2
    simp only [splitOnChar, if_neg hc]
    rw [ih h.2]

theorem splitOnChar_parts_nosep {sep : Char} {l : List Char} :
    ∀ p ∈ splitOnChar sep l, sep ∉ p := by
  induction l with
  | nil =>
    intro p hp
    simp [splitOnChar] at hp
    simp [hp]
  | cons c rest ih =>
    intro p hp
    simp only [splitOnChar] at hp
    by_cases hc : c = sep
    · rw [if_pos hc] at hp
      rcases List.mem_cons.1 hp with h1 | h1
      · simp [h1]
      · exact ih p h1
    · rw [if_neg hc] at hp
      cases hr : splitOnChar sep rest with
      | nil => exact absurd hr (splitOnChar_ne_nil sep rest)
      | cons hd tl =>
        rw [hr] at hp
        rcases List.mem_cons.1 hp with h1 | h1
        · subst h1
          intro hm
          rcases List.mem_cons.1 hm with h2 | h2
          · exact hc h2.symm
          · exact ih hd (hr ▸ List.mem_cons_self hd tl) h2
        · exact ih p (hr ▸ List.mem_cons_of_mem hd h1)

theorem intercalateChar_splitOnChar (sep : Char) (l : List Char) :
    intercalateChar sep (splitOnChar sep l) = l := by
  induction l with
  | nil => rfl
  | cons c rest ih =>
    simp only [splitOnChar]
    by_cases hc : c = sep
    · rw [if_pos hc]
      cases hr : splitOnChar sep rest with
      | nil => exact absurd hr (splitOnChar_ne_nil sep rest)
      | cons hd tl =>
        have hmain := ih
        rw [hr] at hmain
        calc intercalateChar sep ([] :: hd :: tl)
            = sep :: intercalateChar sep (hd :: tl) := by
              simp [intercalateChar]
          _ = sep :: rest := by rw [hmain]
          _ = c :: rest := by rw [hc]
    · rw [if_neg hc]
      cases hr : splitOnChar sep rest with
      | nil => exact absurd hr (splitOnChar_ne_nil sep rest)
      | cons hd tl =>
        have hmain := ih
        rw [hr] at hmain
        show intercalateChar sep ((c :: hd) :: tl) = c :: rest
        cases tl with
        | nil =>
          simp only [intercalateChar] at hmain ⊢
          rw [hmain]
        | cons hd2 tl2 =>
          simp only [intercalateChar] at hmain ⊢
          rw [List.cons_append, hmain]

theorem splitOnChar_eq_pair_iff {sep : Char} {u a b : List Char} :
    splitOnChar sep u = [a, b] ↔ u = a ++ sep :: b ∧ sep ∉ a ∧ sep ∉ b := by
  constructor
  · intro h
    refine ⟨?_, ?_, ?_⟩
    · have := intercalateChar_splitOnChar sep u
      rw [h] at this
      simpa [intercalateChar] using this.symm
    · exact splitOnChar_parts_nosep a (h ▸ List.mem_cons_self a [b])
    · exact splitOnChar_parts_nosep b (h ▸ List.mem_cons_of_mem a
        (List.mem_cons_self b []))
  · rintro ⟨hu, ha, hb⟩
    rw [hu, splitOnChar_append_sep _ ha, splitOnChar_nosep hb]

theorem isPrefixList_append (pat l : List Char) :
    isPrefixList pat (pat ++ l) = true := by
  induction pat with
  | nil => rfl
  | cons p ps ih => simp [isPrefixList, ih]

theorem replaceFirstL_prefix (pat l : List Char) :
    replaceFirstL pat (pat ++ l) = l := by
  cases pat with
  | nil =>
    cases l with
    | nil => rfl
    | cons c rest =>
      show replaceFirstL [] (c :: rest) = c :: rest
      simp [replaceFirstL, isPrefixList]
  | cons p ps =>
    show replaceFirstL (p :: ps) (p :: (ps ++ l)) = l
    simp only [replaceFirstL]
    rw [if_pos (by simpa using isPrefixList_append (p :: ps) l)]
    simp only [List.length_cons, List.drop_succ_cons]
    exact List.drop_left ps l

theorem urlDecode_id {l : List Char} (h1 : '%' ∉ l) (h2 : '+' ∉ l) :
    urlDecode l = l := by
  induction l with
  | nil => rfl
  | cons c rest ih =>
    simp only [List.mem_cons, not_or] at h1 h2
    have hp : c ≠ '+' := fun he => h2.1 he.symm
    have hpc : c ≠ '%' := fun he => h1.1 he.symm
    rw [urlDecode.eq_def]
    simp only [if_neg hp, if_neg hpc]
    rw [ih h1.2 h2.2]

theorem takeWhile_all {p : Char → Bool} {l : List Char}
    (h : ∀ c ∈ l, p c = true) : l.takeWhile p = l := by
  induction l with
  | nil => rfl
  | cons c rest ih =>
    have hc := h c (List.mem_cons_self c rest)
    simp [List.takeWhile_cons, hc,
      ih fun x hx => h x (List.mem_cons_of_mem c hx)]

/-! ### Hexadecimal rendering round-trips through hexadecimal parsing -/

theorem hexVal_hexDigitChar {n : Nat} (h : n < 16) :
    hexVal (hexDigitChar n) = n := by
  interval_cases n <;> decide

theorem isHexDigitB_hexDigitChar {n : Nat} (h : n < 16) :
    isHexDigitB (hexDigitChar n) = true := by
  interval_cases n <;> decide

theorem hexValLE_toHexLE : ∀ fuel n, n < fuel →
    hexValLE (toHexLE fuel n) = n := by
  intro fuel
  induction fuel with
  | zero => intro n h; exact absurd h (Nat.not_lt_zero n)
  | succ f ih =>
    intro n h
    by_cases h16 : n < 16
    · simp only [toHexLE, if_pos h16, hexValLE]
      rw [hexVal_hexDigitChar h16]
      omega
    · simp only [toHexLE, if_neg h16, hexValLE]
      have hn0 : 0 < n := Nat.pos_of_ne_zero fun he => h16 (he ▸ by norm_num)
      have hdiv : n / 16 < n := Nat.div_lt_self hn0 (by norm_num)
      have hf : n / 16 < f := by omega
      rw [ih (n / 16) hf, hexVal_hexDigitChar (Nat.mod_lt n (by norm_num))]
      omega

theorem toHexLE_all_hex : ∀ fuel n, ∀ c ∈ toHexLE fuel n,
    isHexDigitB c = true := by
  intro fuel
  induction fuel with
  | zero => intro n c hc; exact absurd hc (List.not_mem_nil c)
  | succ f ih =>
    intro n c hc
    by_cases h16 : n < 16
    · simp only [toHexLE, if_pos h16, List.mem_singleton] at hc
      rw [hc]
      exact isHexDigitB_hexDigitChar h16
    · simp only [toHexLE, if_neg h16, List.mem_cons] at hc
      rcases hc with hc | hc
      · rw [hc]
        exact isHexDigitB_hexDigitChar (Nat.mod_lt n (by norm_num))
      · exact ih (n / 16) c hc

theorem toHexLE_ne_nil (n : Nat) : toHexLE (n + 1) n ≠ [] := by
  by_cases h16 : n < 16
  · simp [toHexLE, if_pos h16]
  · simp [toHexLE, if_neg h16]

theorem hexDigitsVal_reverse (l : List Char) :
    hexDigitsVal l.reverse = hexValLE l := by
  induction l with
  | nil => rfl
  | cons c rest ih =>
    simp only [List.reverse_cons, hexDigitsVal, List.foldl_append,
      List.foldl_cons, List.foldl_nil, hexValLE]
    unfold hexDigitsVal at ih
    rw [ih]
    omega

theorem parseHexOpt_roundtrip (n : Nat) :
    parseHexOpt ("0x" ++ natToHexString n) = some n := by
  have hdata : ("0x" ++ natToHexString n).data
      = '0' :: 'x' :: natToHexChars n := rfl
  have hall : ∀ c ∈ natToHexChars n, isHexDigitB c = true := by
    intro c hc
    simp only [natToHexChars, List.mem_reverse] at hc
    exact toHexLE_all_hex (n + 1) n c hc
  have hne : natToHexChars n ≠ [] := by
    simp only [natToHexChars]
    intro he
    exact toHexLE_ne_nil n (by simpa using congrArg List.reverse he)
  have hpre : isPrefixList ['0', 'x'] ('0' :: 'x' :: natToHexChars n) = true := by
    simp [isPrefixList]
  have hemp : (natToHexChars n).isEmpty = false := by
    cases hx : natToHexChars n with
    | nil => exact absurd hx hne
    | cons a b => rfl
  simp only [parseHexOpt]
  rw [hdata]
  rw [if_pos hpre]
  simp only [List.drop_succ_cons, List.drop_zero]
  rw [takeWhile_all hall]
  rw [if_neg (by simp [hemp])]
  show some (hexDigitsVal (toHexLE (n + 1) n).reverse) = some n
  rw [hexDigitsVal_reverse]
  exact congrArg some (hexValLE_toHexLE (n + 1) n (Nat.lt_succ_self n))

/-! ## Further helper lemmas for the claim proofs -/

theorem create_user_self {cfg : Config} {now : Nat} {st : WalletState}
    {u sid : Nat} {uri : String} {a b c : Bool} :
    lookupA (createSessionStep cfg now st u sid uri a b c).userSessions u
      = some sid := by
  unfold createSessionStep
  exact lookupA_insertA_self

theorem create_sessions_self {cfg : Config} {now : Nat} {st : WalletState}
    {u sid : Nat} {uri : String} {a b c : Bool} :
    lookupA (createSessionStep cfg now st u sid uri a b c).sessions sid
      = some (newSessionData cfg now u sid uri a b c) := by
  unfold createSessionStep
  exact lookupA_insertA_self

theorem create_sessions_ne {cfg : Config} {now : Nat} {st : WalletState}
    {u sid sid' : Nat} {uri : String} {a b c : Bool} (hne : sid' ≠ sid) :
    lookupA (createSessionStep cfg now st u sid uri a b c).sessions sid'
      = lookupA (if (lookupA st.userSessions u).isSome then
          disconnectWallet st u else st).sessions sid' := by
  unfold createSessionStep
  exact lookupA_insertA_ne hne

theorem newSessionData_uid {cfg : Config} {now : Nat} {u sid : Nat}
    {uri : String} {a b c : Bool} :
    (newSessionData cfg now u sid uri a b c).telegramUserId = u := rfl

theorem modifySession_lookup_self {st : WalletState} {sid : Nat} {s : Session}
    {f : Session → Session} (hl : lookupA st.sessions sid = some s) :
    lookupA (modifySession st sid f).sessions sid = some (f s) := by
  unfold modifySession
  simp only [hl]
  exact lookupA_insertA_self

theorem modifySession_userSessions {st : WalletState} {sid : Nat}
    {f : Session → Session} :
    (modifySession st sid f).userSessions = st.userSessions := by
  unfold modifySession
  cases lookupA st.sessions sid with
  | none => rfl
  | some s => rfl

theorem sendCatch_trace {st : WalletState} {u : Nat} {msg : String}
    {tr : List SendAction} : (sendCatch st u msg tr).2.2 = tr := by
  unfold sendCatch
  split
  · rfl
  split
  · rfl
  split
  · rfl
  · rfl

/-! ## The claims -/

/-- **C4**: `checkConnection(userId)` returns `{connected:false,
reason:"No session found"}` whenever no `userId` index entry exists; whenever
the indexed session's `lastActivity` lies more than 30 minutes in the past it
purges the session (`cleanupSession`) and returns `{connected:false,
reason:"Session timeout"}`; consequently a session idle beyond the window
reports `connected = false` through `checkConnection` whether or not the
periodic `cleanupExpiredSessions` sweep has run. -/
theorem C4_idle_sessions_unreachable {now : Nat} {st : WalletState} {u : Nat}
    (hwf : WF st) :
    (lookupA st.userSessions u = none →
      checkConnection now st u =
        ({ connected := false, reason := some "No session found" }, st)) ∧
    (∀ sid s, lookupA st.userSessions u = some sid →
      lookupA st.sessions sid = some s →
      now - s.lastActivity > sessionExpireMs →
      checkConnection now st u =
        ({ connected := false, reason := some "Session timeout" },
         cleanupSession st sid)) ∧
    (∀ sid s, lookupA st.userSessions u = some sid →
      lookupA st.sessions sid = some s →
      now - s.lastActivity > sessionExpireMs →
      (checkConnection now st u).1.connected = false ∧
      (checkConnection now (cleanupExpiredSessions now st) u).1.connected
        = false) := by
  refine ⟨fun hu => checkConnection_eq_noSession hu,
    fun sid s hu hl ht => checkConnection_eq_timeout hu hl ht,
    fun sid s hu hl ht => ⟨?_, ?_⟩⟩
  · rw [checkConnection_eq_timeout hu hl ht]
  · cases hu2 : lookupA (cleanupExpiredSessions now st).userSessions u with
    | none => rw [checkConnection_eq_noSession hu2]
    | some sid2 =>
      have hsid : sid2 = sid := by
        have := sweep_lookup_user_some hwf hu2
        rw [hu] at this
        exact Option.some.inj this.symm
      subst hsid
      cases hl2 : lookupA (cleanupExpiredSessions now st).sessions sid2 with
      | none => rw [checkConnection_eq_expired hu2 hl2]
      | some s2 =>
        have hs2 : s2 = s := by
          have := sweep_lookup_sessions_some hwf hl2
          rw [hl] at this
          exact Option.some.inj this.symm
        subst hs2
        rw [checkConnection_eq_timeout hu2 hl2 ht]

/-- Witness for C4 at a concrete idle session: user 7's session is 1800001 ms
old at time 1800002, so `checkConnection` reports `connected = false` both
without and with the sweep having run. -/
theorem C4_idle_sessions_unreachable_witness :
    (checkConnection 1800002 stOld 7).1.connected = false ∧
    (checkConnection 1800002 (cleanupExpiredSessions 1800002 stOld) 7).1.connected
      = false :=
  (C4_idle_sessions_unreachable
    ⟨by decide, by decide, by decide, by decide, by decide⟩).2.2 5 sessOld
    (by decide) (by decide) (by decide)

/-- **C7**: removing a session (`cleanupSession`, reached from
`disconnectWallet`, expiry in `checkConnection`, or the sweep) deletes the
session record, its `userId` index entry and any associated pending
transaction; it is idempotent; afterwards no session is reachable by that
`userId` — in particular `disconnectWallet(u)` immediately followed by
`checkConnection(u)` yields `reason = "No session found"` — and the
`userId → sessionId` index and the `sessionId → Session` store stay consistent
(`WF`) across every operation of the service. -/
theorem C7_removal_and_consistency {st : WalletState} (hwf : WF st) :
    (∀ sid s, lookupA st.sessions sid = some s →
      lookupA (cleanupSession st sid).sessions sid = none ∧
      lookupA (cleanupSession st sid).userSessions s.telegramUserId = none ∧
      lookupA (cleanupSession st sid).pendingTransactions sid = none) ∧
    (∀ sid, cleanupSession (cleanupSession st sid) sid = cleanupSession st sid) ∧
    (∀ now u, (checkConnection now (disconnectWallet st u) u).1 =
      { connected := false, reason := some "No session found" }) ∧
    (∀ sid, WF (cleanupSession st sid)) ∧
    (∀ u, WF (disconnectWallet st u)) ∧
    (∀ now u, WF (checkConnection now st u).2) ∧
    (∀ cfg now u sid uri a b c, lookupA st.sessions sid = none →
      WF (createSessionStep cfg now st u sid uri a b c)) ∧
    (∀ cfg now sid topic accounts chains q,
      WF (approvalResolve cfg now st sid topic accounts chains q).1) ∧
    (∀ cfg now u txd d i race,
      WF (sendTransaction cfg now st u txd d i race).2.1) ∧
    (∀ now, WF (cleanupExpiredSessions now st)) ∧
    (∀ now u a cid, WF (handleWalletConnected now st u a cid).1) := by
  refine ⟨?_, ?_, ?_, fun sid => wf_cleanupSession hwf sid,
    fun u => wf_disconnectWallet hwf u, fun now u => wf_checkConnection hwf u,
    fun cfg now u sid uri a b c hfr => wf_createSessionStep hwf hfr,
    fun cfg now sid topic accounts chains q => wf_approvalResolve hwf,
    fun cfg now u txd d i race => wf_sendTransaction hwf,
    fun now => wf_cleanupExpiredSessions hwf,
    fun now u a cid => wf_handleWalletConnected hwf⟩
  · intro sid s hs
    rw [cleanupSession_eq_some hs]
    exact ⟨lookupA_eraseA_self hwf.nodupS, lookupA_eraseA_self hwf.nodupU,
      lookupA_eraseA_self hwf.nodupP⟩
  · intro sid
    cases hs : lookupA st.sessions sid with
    | none => rw [cleanupSession_eq_none hs, cleanupSession_eq_none hs]
    | some s =>
      have hgone : lookupA (cleanupSession st sid).sessions sid = none := by
        rw [cleanupSession_eq_some hs]
        exact lookupA_eraseA_self hwf.nodupS
      rw [cleanupSession_eq_none hgone]
  · intro now u
    rw [checkConnection_eq_noSession (disconnect_user_none hwf u)]

/-- Witness for C7 at the concrete store `stA`: removing session 5 deletes
all three entries for it, and disconnecting user 7 makes
`checkConnection` answer "No session found". -/
theorem C7_removal_and_consistency_witness :
    (lookupA (cleanupSession stA 5).sessions 5 = none ∧
      lookupA (cleanupSession stA 5).userSessions 7 = none ∧
      lookupA (cleanupSession stA 5).pendingTransactions 5 = none) ∧
    (checkConnection 2000 (disconnectWallet stA 7) 7).1 =
      { connected := false, reason := some "No session found" } :=
  ⟨(C7_removal_and_consistency
      ⟨by decide, by decide, by decide, by decide, by decide⟩).1 5 sessA
      (by decide),
   (C7_removal_and_consistency
      ⟨by decide, by decide, by decide, by decide, by decide⟩).2.2.1 2000 7⟩

/-- **C3**: at most one live session references a `userId` at any time:
under the registry invariant two stored sessions with the same owner coincide,
`createWalletConnectSession` (which disconnects any existing session before
storing, and stores fresh uuid session ids) preserves the invariant, and after
two consecutive creates for the same user the first session is gone and
exactly the second one is stored for that user, indexed under the second
call's session id. -/
theorem C3_one_session_per_user {st : WalletState} (hwf : WF st) :
    (∀ sid sid' s s', lookupA st.sessions sid = some s →
      lookupA st.sessions sid' = some s' →
      s.telegramUserId = s'.telegramUserId → sid = sid') ∧
    (∀ cfg now u sid uri a b c, lookupA st.sessions sid = none →
      WF (createSessionStep cfg now st u sid uri a b c)) ∧
    (∀ cfg cfg' now now' u sid1 sid2 uri uri' a b c a' b' c',
      lookupA st.sessions sid1 = none → lookupA st.sessions sid2 = none →
      sid2 ≠ sid1 →
      lookupA (createSessionStep cfg' now' (createSessionStep cfg now st u sid1
          uri a b c) u sid2 uri' a' b' c').userSessions u = some sid2 ∧
      lookupA (createSessionStep cfg' now' (createSessionStep cfg now st u sid1
          uri a b c) u sid2 uri' a' b' c').sessions sid1 = none ∧
      (∀ sid, (∃ s, lookupA (createSessionStep cfg' now' (createSessionStep cfg
          now st u sid1 uri a b c) u sid2 uri' a' b' c').sessions sid = some s ∧
          s.telegramUserId = u) ↔ sid = sid2)) := by
  refine ⟨fun sid sid' s s' hs hs' he => hwf.at_most_one hs hs' he,
    fun cfg now u sid uri a b c hfr => wf_createSessionStep hwf hfr, ?_⟩
  intro cfg cfg' now now' u sid1 sid2 uri uri' a b c a' b' c' hf1 hf2 hne
  have hwf1 : WF (createSessionStep cfg now st u sid1 uri a b c) :=
    wf_createSessionStep hwf hf1
  set st1 := createSessionStep cfg now st u sid1 uri a b c with hst1
  have hu1 : lookupA st1.userSessions u = some sid1 := create_user_self
  have hs1 : lookupA st1.sessions sid1
      = some (newSessionData cfg now u sid1 uri a b c) := create_sessions_self
  have hf2' : lookupA st1.sessions sid2 = none := by
    rw [hst1]
    rw [create_sessions_ne hne]
    by_cases hx : (lookupA st.userSessions u).isSome
    · rw [if_pos hx]
      cases hd : lookupA (disconnectWallet st u).sessions sid2 with
      | none => rfl
      | some s0 =>
        have := disconnect_sessions_mono hwf hd
        rw [hf2] at this
        exact Option.noConfusion this
    · rw [if_neg hx]
      exact hf2
  have hwf2 : WF (createSessionStep cfg' now' st1 u sid2 uri' a' b' c') :=
    wf_createSessionStep hwf1 hf2'
  refine ⟨create_user_self, ?_, ?_⟩
  · -- the first session is removed by the second create's disconnect
    have hne' : sid1 ≠ sid2 := fun he => hne he.symm
    rw [create_sessions_ne hne']
    rw [if_pos (by rw [hu1]; rfl)]
    rw [disconnectWallet_eq_some hu1, cleanupSession_eq_some hs1]
    exact lookupA_eraseA_self hwf1.nodupS
  · intro sid
    constructor
    · rintro ⟨s, hs, huid⟩
      have hu2 : lookupA (createSessionStep cfg' now' st1 u sid2 uri' a' b'
          c').userSessions u = some sid2 := create_user_self
      have := hwf2.session_to_user hs
      rw [huid, hu2] at this
      exact (Option.some.inj this).symm
    · rintro rfl
      exact ⟨newSessionData cfg' now' u _ uri' a' b' c',
        create_sessions_self, rfl⟩

/-- Witness for C3: two consecutive creates for user 9 on the empty store
leave exactly one session, indexed under the second id (21). -/
theorem C3_one_session_per_user_witness :
    lookupA (createSessionStep defaultConfig 10 (createSessionStep
      defaultConfig 5 stEmpty 9 20 "u1" true true true) 9 21 "u2" true true
      true).userSessions 9 = some 21 ∧
    lookupA (createSessionStep defaultConfig 10 (createSessionStep
      defaultConfig 5 stEmpty 9 20 "u1" true true true) 9 21 "u2" true true
      true).sessions 20 = none :=
  ⟨((C3_one_session_per_user
      ⟨by decide, by decide, by decide, by decide, by decide⟩).2.2
      defaultConfig defaultConfig 5 10 9 20 21 "u1" "u2" true true true true
      true true (by decide) (by decide) (by decide)).1,
   ((C3_one_session_per_user
      ⟨by decide, by decide, by decide, by decide, by decide⟩).2.2
      defaultConfig defaultConfig 5 10 9 20 21 "u1" "u2" true true true true
      true true (by decide) (by decide) (by decide)).2.1⟩

/-- **C5**: `sendTransaction` fails with the wallet-not-connected error
whenever `checkConnection(userId).connected` is false, and fails with the
reconnect-required error whenever the session's connection handle is
the manual fallback (no `signClient`) or has no established topic; in both
cases the action trace is empty, i.e. no pending record is written and no
signing request is issued to the wallet. -/
theorem C5_send_preconditions {cfg : Config} {now : Nat} {st : WalletState}
    {u : Nat} {txd : TxInput} {d : String} {i : Nat} {race : RaceOutcome} :
    ((checkConnection now st u).1.connected = false →
      (sendTransaction cfg now st u txd d i race).1
        = .error "Transaction failed: Wallet not connected" ∧
      (sendTransaction cfg now st u txd d i race).2.2 = []) ∧
    (∀ sid s, lookupA st.userSessions u = some sid →
      lookupA st.sessions sid = some s →
      ¬ now - s.lastActivity > sessionExpireMs →
      s.connected = true →
      (s.connectorHasSignClient = false ∨ s.connectorTopic = none) →
      (sendTransaction cfg now st u txd d i race).1
        = .error "Transaction failed: WalletConnect session not properly established. Please reconnect your wallet." ∧
      (sendTransaction cfg now st u txd d i race).2.2 = []) := by
  constructor
  · intro hc
    rw [sendTransaction_eq_notConnected hc]
    exact ⟨rfl, sendCatch_trace⟩
  · intro sid s hu hl ht hcon hman
    have hbad : (!s.connectorHasSignClient || s.connectorTopic.isNone) = true := by
      rcases hman with h1 | h1
      · simp [h1]
      · simp [h1]
    rw [sendTransaction_eq_configError hu hl ht hcon hbad]
    exact ⟨rfl, sendCatch_trace⟩

/-- Witness for C5 at concrete stores: user 7's session in `stFresh` is not
connected, and in `stManual` it is connected but manual, so both calls fail
without issuing a signing request. -/
theorem C5_send_preconditions_witness :
    ((sendTransaction defaultConfig 2000 stFresh 7 { toAddr := "0xBBB" } "d" 11
        RaceOutcome.timedOut).1
      = .error "Transaction failed: Wallet not connected" ∧
     (sendTransaction defaultConfig 2000 stFresh 7 { toAddr := "0xBBB" } "d" 11
        RaceOutcome.timedOut).2.2 = []) ∧
    ((sendTransaction defaultConfig 2000 stManual 7 { toAddr := "0xBBB" } "d" 11
        RaceOutcome.timedOut).1
      = .error "Transaction failed: WalletConnect session not properly established. Please reconnect your wallet." ∧
     (sendTransaction defaultConfig 2000 stManual 7 { toAddr := "0xBBB" } "d" 11
        RaceOutcome.timedOut).2.2 = []) :=
  ⟨C5_send_preconditions.1 (by decide),
   C5_send_preconditions.2 5 sessManual (by decide) (by decide) (by decide)
     (by decide) (Or.inl (by decide))⟩

/-- **C2**: in `sendTransaction` the signing request is raced against the
fixed 60-second timer; when the timer settles first the awaiting caller
receives only the timeout failure (`sendTransaction` returns a single
`Except`, independent of the request's later settlement `late`), and the late
resolution is discarded: the session's `PendingTransaction` record stays
exactly the record written before the request was issued, still with
`status = "pending"`, whatever `late` is. -/
theorem C2_timeout_late_discarded {cfg : Config} {now : Nat} {st : WalletState}
    {u sid : Nat} {s : Session} {txd : TxInput} {d : String} {i : Nat}
    (hu : lookupA st.userSessions u = some sid)
    (hl : lookupA st.sessions sid = some s)
    (ht : ¬ now - s.lastActivity > sessionExpireMs)
    (hcon : s.connected = true)
    (hsc : s.connectorHasSignClient = true)
    (htp : s.connectorTopic.isNone = false) :
    (∀ late late',
      sendTransactionWithLate cfg now st u txd d i late RaceOutcome.timedOut
        = sendTransactionWithLate cfg now st u txd d i late'
            RaceOutcome.timedOut) ∧
    (∀ late,
      (sendTransactionWithLate cfg now st u txd d i late
          RaceOutcome.timedOut).1
        = .error "Transaction request timed out. Please try again." ∧
      lookupA (sendTransactionWithLate cfg now st u txd d i late
          RaceOutcome.timedOut).2.1.pendingTransactions sid
        = some (mkPendingTx i d (mkTxRequest cfg s txd) now)) := by
  have hok : (!s.connectorHasSignClient || s.connectorTopic.isNone) = false := by
    simp [hsc, htp]
  have hrun2 : sendTransaction cfg now st u txd d i RaceOutcome.timedOut
      = sendCatch { st with pendingTransactions :=
          (insertA st.pendingTransactions sid
            (mkPendingTx i d (mkTxRequest cfg s txd) now)) } u
          "Transaction request timeout (60s)"
          [SendAction.recordPending sid
            (mkPendingTx i d (mkTxRequest cfg s txd) now),
           SendAction.issueRequest sid (mkTxRequest cfg s txd)] :=
    sendTransaction_eq_run hu hl ht hcon hok
  refine ⟨fun late late' => rfl, fun late => ?_⟩
  constructor
  · show (sendTransaction cfg now st u txd d i RaceOutcome.timedOut).1 = _
    rw [hrun2, sendCatch_eq_timeoutMsg (by decide) (by decide)]
  · show lookupA (sendTransaction cfg now st u txd d i
        RaceOutcome.timedOut).2.1.pendingTransactions sid = _
    rw [hrun2, sendCatch_eq_timeoutMsg (by decide) (by decide)]
    exact lookupA_insertA_self

/-- Witness for C2: at the concrete connected store `stA`, a timed-out send
yields the timeout failure and a pending record still `status = "pending"`,
even with a late successful settlement supplied. -/
theorem C2_timeout_late_discarded_witness :
    (sendTransactionWithLate defaultConfig 2000 stA 7 { toAddr := "0xBBB" }
        "d" 11 (some (.ok "0xlatehash")) RaceOutcome.timedOut).1
      = .error "Transaction request timed out. Please try again." ∧
    lookupA (sendTransactionWithLate defaultConfig 2000 stA 7
        { toAddr := "0xBBB" } "d" 11 (some (.ok "0xlatehash"))
        RaceOutcome.timedOut).2.1.pendingTransactions 5
      = some (mkPendingTx 11 "d" (mkTxRequest defaultConfig sessA
          { toAddr := "0xBBB" }) 2000) :=
  (C2_timeout_late_discarded (by decide) (by decide) (by decide) (by decide)
    (by decide) (by decide)).2 (some (.ok "0xlatehash"))

/-- **C6 (counterexample)**: the claim "whenever `sendTransaction` fails the
pending record is marked `status = 'failed'` before the typed error is thrown"
is false on the code: at the connected store `stA` a timed-out send throws the
typed timeout error while the session's pending record still has
`status = "pending"` — the `catch` block rethrows the rejection-, timeout- and
configuration-classified errors before reaching the marking code. -/
theorem C6_counterexample :
    (sendTransaction defaultConfig 2000 stA 7 { toAddr := "0xBBB" } "d" 11
        RaceOutcome.timedOut).1
      = .error "Transaction request timed out. Please try again." ∧
    (lookupA (sendTransaction defaultConfig 2000 stA 7 { toAddr := "0xBBB" }
        "d" 11 RaceOutcome.timedOut).2.1.pendingTransactions 5).map
        PendingTx.status ≠ some "failed" ∧
    (lookupA (sendTransaction defaultConfig 2000 stA 7 { toAddr := "0xBBB" }
        "d" 11 RaceOutcome.timedOut).2.1.pendingTransactions 5).map
        PendingTx.status = some "pending" := by
  refine ⟨by decide, by decide, by decide⟩

/-- **C6 (amended)**: only a failure that falls through to the generic
`Transaction failed:` classification marks the session's pending record
`status = "failed"` with the error message attached before the error is
thrown; failures classified as user rejection, timeout, or WalletConnect
configuration error are rethrown as their typed messages without touching the
pending record, which keeps its freshly recorded `status = "pending"`. -/
theorem C6_failed_marking_generic_only {cfg : Config} {now : Nat}
    {st : WalletState} {u sid : Nat} {s : Session} {txd : TxInput} {d : String}
    {i : Nat}
    (hu : lookupA st.userSessions u = some sid)
    (hl : lookupA st.sessions sid = some s)
    (ht : ¬ now - s.lastActivity > sessionExpireMs)
    (hcon : s.connected = true)
    (hsc : s.connectorHasSignClient = true)
    (htp : s.connectorTopic.isNone = false) :
    ((sendTransaction cfg now st u txd d i RaceOutcome.timedOut).1
        = .error "Transaction request timed out. Please try again." ∧
      lookupA (sendTransaction cfg now st u txd d i
          RaceOutcome.timedOut).2.1.pendingTransactions sid
        = some (mkPendingTx i d (mkTxRequest cfg s txd) now)) ∧
    (∀ msg, strIncludes msg "User rejected" = true →
      (sendTransaction cfg now st u txd d i (RaceOutcome.rejected msg)).1
        = .error "Transaction was rejected by user" ∧
      lookupA (sendTransaction cfg now st u txd d i
          (RaceOutcome.rejected msg)).2.1.pendingTransactions sid
        = some (mkPendingTx i d (mkTxRequest cfg s txd) now)) ∧
    (∀ msg, strIncludes msg "User rejected" = false →
      strIncludes msg "timeout" = false →
      strIncludes msg "Missing or invalid" = true →
      (sendTransaction cfg now st u txd d i (RaceOutcome.rejected msg)).1
        = .error "WalletConnect configuration error. Please reconnect your wallet." ∧
      lookupA (sendTransaction cfg now st u txd d i
          (RaceOutcome.rejected msg)).2.1.pendingTransactions sid
        = some (mkPendingTx i d (mkTxRequest cfg s txd) now)) ∧
    (∀ msg, strIncludes msg "User rejected" = false →
      strIncludes msg "timeout" = false →
      strIncludes msg "Missing or invalid" = false →
      (sendTransaction cfg now st u txd d i (RaceOutcome.rejected msg)).1
        = .error ("Transaction failed: " ++ msg) ∧
      lookupA (sendTransaction cfg now st u txd d i
          (RaceOutcome.rejected msg)).2.1.pendingTransactions sid
        = some { mkPendingTx i d (mkTxRequest cfg s txd) now with
                 status := "failed", error := some msg }) := by
  have hok : (!s.connectorHasSignClient || s.connectorTopic.isNone) = false := by
    simp [hsc, htp]
  have hrunT : sendTransaction cfg now st u txd d i RaceOutcome.timedOut
      = sendCatch { st with pendingTransactions :=
          (insertA st.pendingTransactions sid
            (mkPendingTx i d (mkTxRequest cfg s txd) now)) } u
          "Transaction request timeout (60s)"
          [SendAction.recordPending sid
            (mkPendingTx i d (mkTxRequest cfg s txd) now),
           SendAction.issueRequest sid (mkTxRequest cfg s txd)] :=
    sendTransaction_eq_run hu hl ht hcon hok
  have hrunR : ∀ msg,
      sendTransaction cfg now st u txd d i (RaceOutcome.rejected msg)
        = sendCatch { st with pendingTransactions :=
            (insertA st.pendingTransactions sid
              (mkPendingTx i d (mkTxRequest cfg s txd) now)) } u msg
            [SendAction.recordPending sid
              (mkPendingTx i d (mkTxRequest cfg s txd) now),
             SendAction.issueRequest sid (mkTxRequest cfg s txd)] :=
    fun msg => sendTransaction_eq_run hu hl ht hcon hok
  refine ⟨?_, ?_, ?_, ?_⟩
  · rw [hrunT, sendCatch_eq_timeoutMsg (by decide) (by decide)]
    exact ⟨rfl, lookupA_insertA_self⟩
  · intro msg hmsg
    rw [hrunR msg, sendCatch_eq_userRejected hmsg]
    exact ⟨rfl, lookupA_insertA_self⟩
  · intro msg h1 h2 h3
    rw [hrunR msg, sendCatch_eq_configMsg h1 h2 h3]
    exact ⟨rfl, lookupA_insertA_self⟩
  · intro msg h1 h2 h3
    have hu1 : lookupA ({ st with pendingTransactions :=
        (insertA st.pendingTransactions sid
          (mkPendingTx i d (mkTxRequest cfg s txd) now)) } :
        WalletState).userSessions u = some sid := hu
    have hp1 : lookupA ({ st with pendingTransactions :=
        (insertA st.pendingTransactions sid
          (mkPendingTx i d (mkTxRequest cfg s txd) now)) } :
        WalletState).pendingTransactions sid
        = some (mkPendingTx i d (mkTxRequest cfg s txd) now) :=
      lookupA_insertA_self
    rw [hrunR msg, sendCatch_eq_generic_mark h1 h2 h3 hu1 hp1]
    exact ⟨rfl, lookupA_insertA_self⟩

/-- Witness for the amended C6: at `stA`, a generic rejection message marks
the pending record failed with the message attached, while a user rejection
leaves it `status = "pending"`. -/
theorem C6_failed_marking_generic_only_witness :
    ((sendTransaction defaultConfig 2000 stA 7 { toAddr := "0xBBB" } "d" 11
        (RaceOutcome.rejected "boom")).1
      = .error ("Transaction failed: " ++ "boom") ∧
     lookupA (sendTransaction defaultConfig 2000 stA 7 { toAddr := "0xBBB" }
        "d" 11 (RaceOutcome.rejected "boom")).2.1.pendingTransactions 5
      = some { (mkPendingTx 11 "d"
            (mkTxRequest defaultConfig sessA { toAddr := "0xBBB" }) 2000) with
          status := "failed", error := some "boom" }) ∧
    ((sendTransaction defaultConfig 2000 stA 7 { toAddr := "0xBBB" } "d" 11
        (RaceOutcome.rejected "User rejected the request")).1
      = .error "Transaction was rejected by user" ∧
     lookupA (sendTransaction defaultConfig 2000 stA 7 { toAddr := "0xBBB" }
        "d" 11 (RaceOutcome.rejected "User rejected the request")).2.1.pendingTransactions 5
      = some (mkPendingTx 11 "d" (mkTxRequest defaultConfig sessA
          { toAddr := "0xBBB" }) 2000)) :=
  ⟨(C6_failed_marking_generic_only (by decide) (by decide) (by decide)
      (by decide) (by decide) (by decide)).2.2.2 "boom" (by decide) (by decide)
      (by decide),
   (C6_failed_marking_generic_only (by decide) (by decide) (by decide)
      (by decide) (by decide) (by decide)).2.1 "User rejected the request"
      (by decide)⟩

/-- **C9**: for every `sendTransaction` call that passes its preconditions,
the action trace is exactly the `pending` record being stored and then the
signing request being issued (in that order), the normalized request has
`from` equal to the session's address, `data`/`value` defaulted to
`"0x"`/`"0x0"` when omitted, `gas`/`gasPrice` defaulted from configuration
when omitted, and an explicit `chainId` that is the required chain id rendered
in hexadecimal (it parses back, base 16, to `config.chainId`); the recorded
pending transaction carries `status = "pending"` and that request. -/
theorem C9_normalized_request {cfg : Config} {now : Nat} {st : WalletState}
    {u sid : Nat} {s : Session} {txd : TxInput} {d : String} {i : Nat}
    {race : RaceOutcome}
    (hu : lookupA st.userSessions u = some sid)
    (hl : lookupA st.sessions sid = some s)
    (ht : ¬ now - s.lastActivity > sessionExpireMs)
    (hcon : s.connected = true)
    (hsc : s.connectorHasSignClient = true)
    (htp : s.connectorTopic.isNone = false) :
    (sendTransaction cfg now st u txd d i race).2.2
      = [SendAction.recordPending sid
          (mkPendingTx i d (mkTxRequest cfg s txd) now),
         SendAction.issueRequest sid (mkTxRequest cfg s txd)] ∧
    (mkTxRequest cfg s txd).fromAddr = s.address ∧
    (txd.data = none → (mkTxRequest cfg s txd).data = "0x") ∧
    (txd.value = none → (mkTxRequest cfg s txd).value = "0x0") ∧
    (txd.gasLimit = none → (mkTxRequest cfg s txd).gas = cfg.gasLimit) ∧
    (txd.gasPrice = none → (mkTxRequest cfg s txd).gasPrice = cfg.gasPrice) ∧
    (mkTxRequest cfg s txd).chainId = "0x" ++ natToHexString cfg.chainId ∧
    parseHexOpt (mkTxRequest cfg s txd).chainId = some cfg.chainId ∧
    (mkPendingTx i d (mkTxRequest cfg s txd) now).status = "pending" ∧
    (mkPendingTx i d (mkTxRequest cfg s txd) now).txRequest
      = mkTxRequest cfg s txd := by
  have hok : (!s.connectorHasSignClient || s.connectorTopic.isNone) = false := by
    simp [hsc, htp]
  refine ⟨?_, rfl, fun h => by simp [mkTxRequest, jsOrStr, h],
    fun h => by simp [mkTxRequest, jsOrStr, h],
    fun h => by simp [mkTxRequest, jsOrNat, h],
    fun h => by simp [mkTxRequest, jsOrStr, h], rfl,
    parseHexOpt_roundtrip cfg.chainId, rfl, rfl⟩
  rw [sendTransaction_eq_run hu hl ht hcon hok]
  cases race with
  | resolved h => rfl
  | rejected m => exact sendCatch_trace
  | timedOut => exact sendCatch_trace

/-- Witness for C9 at `stA` with every optional payload field omitted:
the trace records the pending transaction and then issues the defaulted,
chain-qualified request. -/
theorem C9_normalized_request_witness :
    (sendTransaction defaultConfig 2000 stA 7 { toAddr := "0xBBB" } "d" 11
        (RaceOutcome.resolved "0xh")).2.2
      = [SendAction.recordPending 5 (mkPendingTx 11 "d"
          (mkTxRequest defaultConfig sessA { toAddr := "0xBBB" }) 2000),
         SendAction.issueRequest 5
          (mkTxRequest defaultConfig sessA { toAddr := "0xBBB" })] ∧
    (mkTxRequest defaultConfig sessA { toAddr := "0xBBB" }).chainId = "0x61" ∧
    parseHexOpt (mkTxRequest defaultConfig sessA { toAddr := "0xBBB" }).chainId
      = some 97 :=
  ⟨(@C9_normalized_request defaultConfig 2000 stA 7 5 sessA
      { toAddr := "0xBBB" } "d" 11 (RaceOutcome.resolved "0xh") (by decide)
      (by decide) (by decide) (by decide) (by decide) (by decide)).1,
   by decide,
   (@C9_normalized_request defaultConfig 2000 stA 7 5 sessA
      { toAddr := "0xBBB" } "d" 11 (RaceOutcome.resolved "0xh") (by decide)
      (by decide) (by decide) (by decide) (by decide)
      (by decide)).2.2.2.2.2.2.2.1⟩

theorem approvalResolveOk_lookup {cfg : Config} {now : Nat} {st1 : WalletState}
    {sid : Nat} {accounts : List String} {chains : Option (List String)}
    {query : Except String String} {addr : String} {s1 : Session}
    (ha : approvalAddress accounts = some addr)
    (hl1 : lookupA st1.sessions sid = some s1) :
    lookupA (approvalResolveOk cfg now st1 sid accounts chains
        query).1.sessions sid
      = some { ({ s1 with
            connectorChainId := (approvalChainId cfg chains query) }) with
          connected := true, address := some addr,
          chainId := (approvalChainId cfg chains query),
          lastActivity := now } := by
  unfold approvalResolveOk
  have hl2 : lookupA (modifySession st1 sid fun s =>
      { s with
        connectorChainId := (approvalChainId cfg chains query) }).sessions sid
      = some { s1 with
          connectorChainId := (approvalChainId cfg chains query) } :=
    modifySession_lookup_self hl1
  simp only [ha, hl2]
  exact lookupA_insertA_self

theorem approvalResolveOk_userSessions {cfg : Config} {now : Nat}
    {st1 : WalletState} {sid : Nat} {accounts : List String}
    {chains : Option (List String)} {query : Except String String} :
    (approvalResolveOk cfg now st1 sid accounts chains query).1.userSessions
      = st1.userSessions := by
  unfold approvalResolveOk
  dsimp only
  split
  · exact modifySession_userSessions
  · split
    · exact modifySession_userSessions
    · exact modifySession_userSessions

theorem approvalResolve_userSessions {cfg : Config} {now : Nat}
    {st : WalletState} {sid topic : Nat} {accounts : List String}
    {chains : Option (List String)} {query : Except String String} :
    (approvalResolve cfg now st sid topic accounts chains query).1.userSessions
      = st.userSessions := by
  unfold approvalResolve
  dsimp only
  rcases chains with _ | l
  · exact (approvalResolveOk_userSessions).trans modifySession_userSessions
  · cases l with
    | nil => exact modifySession_userSessions
    | cons c cs =>
      exact (approvalResolveOk_userSessions).trans modifySession_userSessions

/-- **C8**: when the approval future resolves for a protocol-backed session,
the stored session becomes `connected = true` with `address` the first
authorized account and `lastActivity` refreshed; the recorded `chainId` is the
payload's chain id when it is present and equals the required chain
(`config.chainId`, nonzero by `config.js`), and otherwise the wallet's
`eth_chainId` answer (falling back to `config.chainId` when the query throws);
a subsequent `checkConnection` within the idle window then reports
`connected = true` with that address and chain id. -/
theorem C8_approval_resolution {cfg : Config} {now : Nat} {st : WalletState}
    {sid topic : Nat} {s : Session} {accounts : List String}
    {chains : Option (List String)} {query : Except String String}
    {addr : String}
    (hwf : WF st)
    (hs : lookupA st.sessions sid = some s)
    (hch : chains ≠ some [])
    (ha : approvalAddress accounts = some addr) :
    (∃ s1, lookupA (approvalResolve cfg now st sid topic accounts chains
        query).1.sessions sid = some s1 ∧
      s1.connected = true ∧ s1.address = some addr ∧
      s1.chainId = (approvalChainId cfg chains query) ∧
      s1.lastActivity = now ∧ s1.telegramUserId = s.telegramUserId ∧
      s1.id = s.id) ∧
    (payloadChainId chains = some cfg.chainId → cfg.chainId ≠ 0 →
      approvalChainId cfg chains query = payloadChainId chains) ∧
    (jsFalsyNat (payloadChainId chains) = true ∨
        payloadChainId chains ≠ some cfg.chainId →
      approvalChainId cfg chains query =
        match query with
        | .ok resp => parseHexOpt resp
        | .error _ => some cfg.chainId) ∧
    (∀ m, ¬ m - now > sessionExpireMs →
      (checkConnection m (approvalResolve cfg now st sid topic accounts chains
          query).1 s.telegramUserId).1
        = { connected := true, address := some addr,
            chainId := (approvalChainId cfg chains query),
            sessionId := some s.id }) := by
  have hs1 : lookupA (modifySession st sid fun q =>
      { q with
        connectorConnected := true,
        connectorTopic := some topic,
        connectorAccounts := accounts }).sessions sid
      = some { s with
               connectorConnected := true,
               connectorTopic := some topic,
               connectorAccounts := accounts } :=
    modifySession_lookup_self hs
  have hkey : lookupA (approvalResolve cfg now st sid topic accounts chains
      query).1.sessions sid
      = some { ({ ({ s with
                     connectorConnected := true,
                     connectorTopic := some topic,
                     connectorAccounts := accounts }) with
                 connectorChainId := (approvalChainId cfg chains query) }) with
               connected := true,
               address := some addr,
               chainId := (approvalChainId cfg chains query),
               lastActivity := now } := by
    unfold approvalResolve
    dsimp only
    rcases chains with _ | l
    · exact approvalResolveOk_lookup ha hs1
    · cases l with
      | nil => exact absurd rfl hch
      | cons c cs => exact approvalResolveOk_lookup ha hs1
  refine ⟨⟨_, hkey, rfl, rfl, rfl, rfl, rfl, rfl⟩, ?_, ?_, ?_⟩
  · intro hp hnz
    obtain ⟨m, hm⟩ : ∃ m, cfg.chainId = m + 1 := ⟨cfg.chainId - 1, by omega⟩
    unfold approvalChainId
    rw [hp, hm]
    simp [jsFalsyNat]
  · intro h
    rcases h with h1 | h1
    · unfold approvalChainId
      rw [h1]
      simp
    · unfold approvalChainId
      have hne : (payloadChainId chains == some cfg.chainId) = false := by
        simp [h1]
      rw [hne]
      simp
  · intro m hm
    have hu2 : lookupA (approvalResolve cfg now st sid topic accounts chains
        query).1.userSessions s.telegramUserId = some sid := by
      rw [approvalResolve_userSessions]
      exact hwf.session_to_user hs
    rw [checkConnection_eq_live hu2 hkey (by simpa using hm)]

/-- Witness for C8: at the fresh store `stFresh`, the approval resolving with
account `eip155:97:0xAAA` and payload chain `eip155:97` leads
`checkConnection` to report `connected = true` with that address and chain id
97. -/
theorem C8_approval_resolution_witness :
    (checkConnection 3000 (approvalResolve defaultConfig 2500 stFresh 5 42
        ["eip155:97:0xAAA"] (some ["eip155:97"]) (.error "no query")).1 7).1
      = { connected := true, address := some "0xAAA",
          chainId := approvalChainId defaultConfig (some ["eip155:97"])
            (.error "no query"),
          sessionId := some 5 } :=
  (@C8_approval_resolution defaultConfig 2500 stFresh 5 42 sessFresh
    ["eip155:97:0xAAA"] (some ["eip155:97"]) (.error "no query") "0xAAA"
    ⟨by decide, by decide, by decide, by decide, by decide⟩ (by decide)
    (by decide) (by decide)).2.2.2 3000 (by decide)

/-- **C1**: for a stored session, the user-visible `walletConnected`
notification is emitted at most once.  `handleWalletConnected`, the single
handler both trigger paths call (the `walletConnected` event listener fed by
the approval resolution, and the `checkConnection` poll), checks and sets the
session's `notificationSent` flag in its synchronous guard phase before any
message is sent, and no-ops when the flag is already set — so a second
invocation no-ops whether it runs after the first (sequential) or interleaves
at the `await` boundary between the first's guard and its message send. -/
theorem C1_notification_at_most_once {now now2 : Nat} {st : WalletState}
    {u sid : Nat} {s : Session} {a a2 : String} {cid cid2 : Option Nat}
    (hu : lookupA st.userSessions u = some sid)
    (hl : lookupA st.sessions sid = some s) :
    (s.notificationSent = true →
      handleWalletConnected now st u a cid = (st, false)) ∧
    (s.notificationSent = false →
      (handleWalletConnected now st u a cid).2 = true ∧
      (hwcGuard st u).2.1 = true ∧
      lookupA (hwcGuard st u).1.sessions sid
        = some { s with notificationSent := true }) ∧
    (s.notificationSent = false →
      (handleWalletConnected now2
        (handleWalletConnected now st u a cid).1 u a2 cid2).2 = false) ∧
    (s.notificationSent = false →
      (hwcGuard (hwcGuard st u).1 u).2.1 = false) := by
  refine ⟨?_, ?_, ?_, ?_⟩
  · intro hf
    rw [handleWalletConnected_eq, hwcGuard_eq_dup hu hl hf]
    simp
  · intro hf
    have hg := hwcGuard_eq_fresh hu hl hf
    refine ⟨?_, ?_, ?_⟩
    · rw [handleWalletConnected_eq, hg]
      simp
    · rw [hg]
    · rw [hg]
      exact lookupA_insertA_self
  · intro hf
    have hst1 : (handleWalletConnected now st u a cid).1
        = hwcFinish now ({ st with sessions := (insertA st.sessions sid
            { s with notificationSent := true }) }) (some sid) a cid := by
      rw [handleWalletConnected_eq, hwcGuard_eq_fresh hu hl hf]
      rfl
    have hl1 : lookupA ({ st with sessions := (insertA st.sessions sid
        { s with notificationSent := true }) } :
        WalletState).sessions sid = some { s with notificationSent := true } :=
      lookupA_insertA_self
    have hfin : (handleWalletConnected now st u a cid).1
        = { st with sessions := (insertA (insertA st.sessions sid
            { s with notificationSent := true }) sid
            { ({ s with notificationSent := true }) with
              connected := true,
              address := some a,
              chainId := cid,
              lastActivity := now }) } := by
      rw [hst1, hwcFinish_eq_some hl1]
    have hu2 : lookupA (handleWalletConnected now st u a cid).1.userSessions u
        = some sid := by
      rw [hfin]
      exact hu
    have hl2 : lookupA (handleWalletConnected now st u a cid).1.sessions sid
        = some { ({ s with notificationSent := true }) with
            connected := true,
            address := some a,
            chainId := cid,
            lastActivity := now } := by
      rw [hfin]
      exact lookupA_insertA_self
    rw [handleWalletConnected_eq, hwcGuard_eq_dup hu2 hl2 rfl]
    simp
  · intro hf
    have hg := hwcGuard_eq_fresh hu hl hf
    have hu1 : lookupA (hwcGuard st u).1.userSessions u = some sid := by
      rw [hg]
      exact hu
    have hl1 : lookupA (hwcGuard st u).1.sessions sid
        = some { s with notificationSent := true } := by
      rw [hg]
      exact lookupA_insertA_self
    rw [hwcGuard_eq_dup hu1 hl1 rfl]

/-- Witness for C1 at the concrete store `stA` (flag initially unset): the
first `handleWalletConnected` sends the message, the second — whether run
after the first completes or interleaved right after the first guard — does
not. -/
theorem C1_notification_at_most_once_witness :
    (handleWalletConnected 3000 stA 7 "0xCCC" (some 97)).2 = true ∧
    (handleWalletConnected 3500
      (handleWalletConnected 3000 stA 7 "0xCCC" (some 97)).1 7 "0xCCC"
      (some 97)).2 = false ∧
    (hwcGuard (hwcGuard stA 7).1 7).2.1 = false :=
  ⟨((@C1_notification_at_most_once 3000 3500 stA 7 5 sessA "0xCCC" "0xCCC"
      (some 97) (some 97) (by decide) (by decide)).2.1 (by decide)).1,
   (@C1_notification_at_most_once 3000 3500 stA 7 5 sessA "0xCCC" "0xCCC"
      (some 97) (some 97) (by decide) (by decide)).2.2.1 (by decide),
   (@C1_notification_at_most_once 3000 3500 stA 7 5 sessA "0xCCC" "0xCCC"
      (some 97) (some 97) (by decide) (by decide)).2.2.2 (by decide)⟩

/-! ### C10 helper lemmas -/

theorem uuid_no_mem {l : List Char} (h : uuidShaped l = true) {c0 : Char}
    (h1 : isHexDigitB c0 = false) (h2 : c0 ≠ '-') : c0 ∉ l := by
  intro hm
  simp only [uuidShaped, Bool.and_eq_true, List.all_eq_true] at h
  have := h.2 c0 hm
  rw [h1] at this
  simp at this
  exact h2 this

theorem uuid_length {l : List Char} (h : uuidShaped l = true) :
    l.length = 36 := by
  simp only [uuidShaped, Bool.and_eq_true] at h
  simpa using h.1

theorem hexKey_no_mem {l : List Char} (h : hexKeyShaped l = true) {c0 : Char}
    (h1 : isHexDigitB c0 = false) : c0 ∉ l := by
  intro hm
  simp only [hexKeyShaped, Bool.and_eq_true, List.all_eq_true] at h
  have := h.2 c0 hm
  rw [h1] at this
  exact Bool.noConfusion this

theorem hexKey_length {l : List Char} (h : hexKeyShaped l = true) :
    l.length = 64 := by
  simp only [hexKeyShaped, Bool.and_eq_true] at h
  simpa using h.1

theorem validate_generate {sid key : List Char} (hs : uuidShaped sid = true)
    (hk : hexKeyShaped key = true) :
    validateURIChars (generateWalletConnectURIChars sid key) = true := by
  have hsid_q : '?' ∉ sid := uuid_no_mem hs (by decide) (by decide)
  have hsid_at : '@' ∉ sid := uuid_no_mem hs (by decide) (by decide)
  have hkey_q : '?' ∉ key := hexKey_no_mem hk (by decide)
  have hkey_amp : '&' ∉ key := hexKey_no_mem hk (by decide)
  have hkey_eqc : '=' ∉ key := hexKey_no_mem hk (by decide)
  have hkey_pct : '%' ∉ key := hexKey_no_mem hk (by decide)
  have hkey_plus : '+' ∉ key := hexKey_no_mem hk (by decide)
  have hshape : generateWalletConnectURIChars sid key
      = ("wc:".data ++ sid ++ ['@', '1']) ++ '?' ::
        (("bridge=".data ++ encodeURIComponentL bridgeChars) ++ '&' ::
          ("key=".data ++ key)) := by
    have e1 : "@".data = ['@'] := rfl
    have e2 : "1".data = ['1'] := rfl
    have e3 : "?bridge=".data = '?' :: "bridge=".data := rfl
    have e4 : "&key=".data = '&' :: "key=".data := rfl
    simp only [generateWalletConnectURIChars, e1, e2, e3, e4,
      List.append_assoc, List.cons_append, List.singleton_append,
      List.nil_append]
  have hB_noq : '?' ∉ "wc:".data ++ sid ++ ['@', '1'] := by
    intro hm
    rcases List.mem_append.1 hm with hm1 | hm1
    · rcases List.mem_append.1 hm1 with hm2 | hm2
      · exact absurd hm2 (by decide)
      · exact hsid_q hm2
    · exact absurd hm1 (by decide)
  have hQ_noq : '?' ∉ ("bridge=".data ++ encodeURIComponentL bridgeChars)
      ++ '&' :: ("key=".data ++ key) := by
    intro hm
    rcases List.mem_append.1 hm with hm1 | hm1
    · exact absurd hm1 (by decide)
    · rcases List.mem_cons.1 hm1 with hm2 | hm2
      · exact absurd hm2 (by decide)
      · rcases List.mem_append.1 hm2 with hm3 | hm3
        · exact absurd hm3 (by decide)
        · exact hkey_q hm3
  have hsplitq : splitOnChar '?' (generateWalletConnectURIChars sid key)
      = ["wc:".data ++ sid ++ ['@', '1'],
         ("bridge=".data ++ encodeURIComponentL bridgeChars) ++ '&' ::
          ("key=".data ++ key)] := by
    rw [hshape]
    exact splitOnChar_eq_pair_iff.2 ⟨rfl, hB_noq, hQ_noq⟩
  have hB_noat : '@' ∉ "wc:".data ++ sid := by
    intro hm
    rcases List.mem_append.1 hm with hm1 | hm1
    · exact absurd hm1 (by decide)
    · exact hsid_at hm1
  have hsplitat : splitOnChar '@' ("wc:".data ++ sid ++ ['@', '1'])
      = ["wc:".data ++ sid, ['1']] := by
    have hform : "wc:".data ++ sid ++ ['@', '1']
        = ("wc:".data ++ sid) ++ '@' :: ['1'] := rfl
    rw [hform]
    exact splitOnChar_eq_pair_iff.2 ⟨rfl, hB_noat, by decide⟩
  have hpre : isPrefixList "wc:".data (generateWalletConnectURIChars sid key)
      = true := by
    rw [hshape]
    have hform : ("wc:".data ++ sid ++ ['@', '1']) ++ '?' ::
        (("bridge=".data ++ encodeURIComponentL bridgeChars) ++ '&' ::
          ("key=".data ++ key))
        = "wc:".data ++ (sid ++ ['@', '1'] ++ '?' ::
          (("bridge=".data ++ encodeURIComponentL bridgeChars) ++ '&' ::
            ("key=".data ++ key))) := by
      simp [List.append_assoc]
    rw [hform]
    exact isPrefixList_append _ _
  have hrep : replaceFirstL "wc:".data ("wc:".data ++ sid) = sid :=
    replaceFirstL_prefix _ _
  have hlen := uuid_length hs
  have hne : sid.isEmpty = false := by
    cases hx : sid with
    | nil => rw [hx] at hlen; exact absurd hlen (by decide)
    | cons c r => rfl
  -- the query-parameter lookups
  have hkey_ne : ("key=".data ++ key).isEmpty = false := rfl
  have hsplitamp : splitOnChar '&'
      (("bridge=".data ++ encodeURIComponentL bridgeChars) ++ '&' ::
        ("key=".data ++ key))
      = ["bridge=".data ++ encodeURIComponentL bridgeChars,
         "key=".data ++ key] := by
    refine splitOnChar_eq_pair_iff.2 ⟨rfl, by decide, ?_⟩
    intro hm
    rcases List.mem_append.1 hm with hm1 | hm1
    · exact absurd hm1 (by decide)
    · exact hkey_amp hm1
  have hsplit_p2 : splitOnChar '=' ("key=".data ++ key) = ["key".data, key] := by
    have hform : "key=".data ++ key = "key".data ++ '=' :: key := rfl
    rw [hform]
    exact splitOnChar_eq_pair_iff.2 ⟨rfl, by decide, hkey_eqc⟩
  have hpair_p2 : splitPairAtEq ("key=".data ++ key) = ("key".data, key) := by
    unfold splitPairAtEq
    rw [hsplit_p2]
    rfl
  have hdec_key : urlDecode key = key := urlDecode_id hkey_pct hkey_plus
  have hfilter : (splitOnChar '&'
      (("bridge=".data ++ encodeURIComponentL bridgeChars) ++ '&' ::
        ("key=".data ++ key))).filter (fun p => !p.isEmpty)
      = ["bridge=".data ++ encodeURIComponentL bridgeChars,
         "key=".data ++ key] := by
    rw [hsplitamp]
    rfl
  have hget_bridge : urlParamsGet
      (("bridge=".data ++ encodeURIComponentL bridgeChars) ++ '&' ::
        ("key=".data ++ key)) "bridge".data
      = some (urlDecode (encodeURIComponentL bridgeChars)) := by
    unfold urlParamsGet
    rw [hfilter]
    rfl
  have hget_key : urlParamsGet
      (("bridge=".data ++ encodeURIComponentL bridgeChars) ++ '&' ::
        ("key=".data ++ key)) "key".data
      = some key := by
    unfold urlParamsGet
    rw [hfilter]
    simp only [List.map_cons, List.map_nil, hpair_p2]
    rw [List.find?_cons_of_neg _ (by decide), List.find?_cons_of_pos _ (by
      show decide ((urlDecode "key".data) = "key".data) = true
      decide)]
    simp [hdec_key]
  -- now run the validator
  unfold validateURIChars
  simp only [hsplitq, hsplitat, hrep, hpre, hne, hlen, hget_bridge, hget_key,
    hexKey_length hk]
  decide

theorem validateURIChars_iff (u : List Char) :
    validateURIChars u = true ↔ claimAcceptsURI u := by
  unfold claimAcceptsURI
  constructor
  · intro h
    unfold validateURIChars at h
    split at h
    · simp at h
    · rename_i hpre
      have hpre' : isPrefixList "wc:".data u = true := by
        simpa using hpre
      split at h
      · rename_i base params heq
        split at h
        · rename_i first version heq2
          split at h
          · simp at h
          · rename_i h10
            split at h
            · simp at h
            · rename_i hver
              have hlen10 : 10 ≤ (replaceFirstL "wc:".data first).length := by
                simp only [Bool.or_eq_true, decide_eq_true_eq, not_or] at h10
                exact Nat.le_of_not_lt h10.2
              have hver' : version = "1".data ∨ version = "2".data := by
                by_cases h1 : version = "1".data
                · exact Or.inl h1
                by_cases h2 : version = "2".data
                · exact Or.inr h2
                exact absurd (by simp [h1, h2]) hver
              obtain ⟨hu, hqb, hqq⟩ := splitOnChar_eq_pair_iff.1 heq
              obtain ⟨hbase, hia, hva⟩ := splitOnChar_eq_pair_iff.1 heq2
              refine ⟨hpre', base, params, hu, hqb, hqq, first, version,
                hbase, hia, hva, hlen10, hver', ?_⟩
              intro hv1
              split at h
              · split at h
                · simp at h
                · rename_i b hbeq
                  split at h
                  · simp at h
                  · rename_i hbi
                    split at h
                    · simp at h
                    · rename_i k hkeq
                      split at h
                      · simp at h
                      · rename_i hk20
                        exact ⟨b, hbeq, by simpa using hbi, k, hkeq,
                          Nat.le_of_not_lt hk20⟩
              · rename_i hv
                exact absurd (by simp [hv1]) hv
        · simp at h
      · simp at h
  · rintro ⟨hpre, base, query, hu, hqb, hqq, idPart, version, hbase, hia, hva,
      h10, hver, himpl⟩
    have hsp : splitOnChar '?' u = [base, query] :=
      splitOnChar_eq_pair_iff.2 ⟨hu, hqb, hqq⟩
    have hsp2 : splitOnChar '@' base = [idPart, version] :=
      splitOnChar_eq_pair_iff.2 ⟨hbase, hia, hva⟩
    have hnem : (replaceFirstL "wc:".data idPart).isEmpty = false := by
      cases hx : replaceFirstL "wc:".data idPart with
      | nil =>
        rw [hx] at h10
        exact absurd h10 (by decide)
      | cons c r => rfl
    have h10' : decide ((replaceFirstL "wc:".data idPart).length < 10)
        = false := decide_eq_false (Nat.not_lt.2 h10)
    have e1 : ¬((!true : Bool) = true) := by decide
    have e2 : ¬((false || false : Bool) = true) := by decide
    unfold validateURIChars
    simp only [hpre, hsp, hsp2, hnem, h10']
    rcases hver with hv | hv
    · subst hv
      obtain ⟨b, hb, hbi, k, hk, hk20⟩ := himpl rfl
      have e3 : ¬(("1".data.isEmpty
          || ("1".data != "1".data && "1".data != "2".data)) = true) := by
        decide
      have e4 : (("1".data == "1".data) = true) := by decide
      rw [if_neg e1, if_neg e2, if_neg e3, if_pos e4]
      simp only [hb]
      have e5 : ¬((!strIncludesL "bridge.walletconnect.org".data b) = true) := by
        rw [hbi]
        decide
      rw [if_neg e5]
      simp only [hk]
      rw [if_neg (Nat.not_lt.2 hk20)]
    · subst hv
      have e3 : ¬(("2".data.isEmpty
          || ("2".data != "1".data && "2".data != "2".data)) = true) := by
        decide
      have e4 : ¬(("2".data == "1".data) = true) := by decide
      rw [if_neg e1, if_neg e2, if_neg e3, if_neg e4]

/-- C10: every URI produced by the manual fallback generator, of the form
`wc:<uuid>@1?bridge=<encoded bridge>&key=<64 hex chars>`, is accepted by
`validateWalletConnectURI`; and the validator returns `true` exactly when the
string starts with `wc:`, contains exactly one `?` separating base and query,
the base splits on `@` into an id of length at least 10 and a version equal
to `1` or `2`, and, for version `1`, the query carries a `bridge` parameter
containing `bridge.walletconnect.org` and a `key` parameter of length at
least 20. -/
theorem C10_generate_validates (sid key : List Char)
    (hs : uuidShaped sid = true) (hk : hexKeyShaped key = true) :
    validateURIChars (generateWalletConnectURIChars sid key) = true ∧
    ∀ u : List Char, validateURIChars u = true ↔ claimAcceptsURI u :=
  ⟨validate_generate hs hk, validateURIChars_iff⟩

/-- Witness for C10 at a concrete uuid draw and a concrete 64-hex key. -/
theorem C10_generate_validates_witness :
    uuidShaped "f47ac10b-58cc-4372-a567-0e02b2c3d479".data = true ∧
    hexKeyShaped
      ("0123456789abcdef0123456789abcdef" ++
        "0123456789abcdef0123456789abcdef").data = true ∧
    validateURIChars (generateWalletConnectURIChars
      "f47ac10b-58cc-4372-a567-0e02b2c3d479".data
      ("0123456789abcdef0123456789abcdef" ++
        "0123456789abcdef0123456789abcdef").data) = true :=
  ⟨by decide, by decide,
    (C10_generate_validates "f47ac10b-58cc-4372-a567-0e02b2c3d479".data
      ("0123456789abcdef0123456789abcdef" ++
        "0123456789abcdef0123456789abcdef").data
      (by decide) (by decide)).1⟩
